import Mathlib

/-!
Verification of the scop OBJ/MTL/BMP loading core (luis-prates/42_scop).

Shallow embedding of the Rust sources under `src/`:
* `src/loaders/obj/index.rs`   — OBJ face-index token parsing,
* `src/loaders/obj/parse_obj.rs` — the OBJ `load` pipeline (face bucketing,
  fan expansion, bucket assembly, material lookup),
* `src/loaders/obj/parse_mtl.rs` — MTL material records,
* `src/loaders/obj/triangulate.rs` — the robust face triangulator,
* `src/scene/coloring.rs`, `src/scene/model.rs` — per-face shading,
* `src/scene/model_builder.rs` — scene assembly and texture resolution,
* `src/my_bmp_loader.rs`, `src/loaders/bmp/image.rs` — BMP decoding.

Machine floats (`f32`/`f64`) are embedded as exact rationals `ℚ`: every
arithmetic operation the verified paths perform on the concrete inputs used
here (small integer-valued coordinates, fixed ramp constants) is exact in
the source's floating point as well, and the control-flow facts proved
below do not depend on rounding.  Rust `Vec<T>` becomes `List T`,
`Option`/`Result` become `Option`/`Except`, and a Rust `panic!` is made
explicit as a dedicated outcome constructor.
-/

namespace Scop

/-! ## OBJ index parsing — `src/loaders/obj/index.rs` -/

/-- `FaceVertex` from index.rs line 1:
`(position_index, optional texcoord_index, optional normal_index)`. -/
abbrev FaceVertex := Nat × Option Nat × Option Nat

/-- Digit-string to number; helper for `parse_isize`.  `none` when the list
is empty or contains a non-digit. -/
def parse_digits (cs : List Char) : Option Nat :=
  if cs = [] then none
  else if cs.all Char.isDigit then
    some (cs.foldl (fun a c => a * 10 + (c.toNat - 48)) 0)
  else none

/-- Rust's `str::parse::<isize>`: an optional `+`/`-` sign followed by one
or more ASCII digits.  Overflow of the 64-bit range is not modelled; the
claims quantify over mathematical integers. -/
def parse_isize (s : String) : Option Int :=
  match s.toList with
  | '+' :: rest => (parse_digits rest).map Int.ofNat
  | '-' :: rest => (parse_digits rest).map (fun n => -(n : Int))
  | cs => (parse_digits cs).map Int.ofNat

/-- The resolution rule applied by `parse_obj_index` (index.rs lines 88-92)
to an already-parsed nonzero literal: positive literals are 1-based,
negative literals are relative to the current element count. -/
def resolve_index (parsed : Int) (count : Nat) : Int :=
  if parsed > 0 then parsed - 1 else (count : Int) + parsed

/-- `parse_obj_index` from index.rs lines 61-102: parse a face-index token
against the current element `count`.  Error strings stand in for the
formatted messages of the source. -/
def parse_obj_index (raw : String) (count : Nat) (label : String) :
    Except String Nat :=
  match parse_isize raw with
  | none => .error ("invalid " ++ label ++ " index '" ++ raw ++ "'")
  | some parsed =>
    if parsed = 0 then
      .error (label ++ " index 0 is invalid in OBJ format")
    else if count = 0 then
      .error (label ++ " index '" ++ raw ++ "' referenced before any " ++
        label ++ " data was defined")
    else
      let resolved := resolve_index parsed count
      if resolved < 0 ∨ (count : Int) ≤ resolved then
        .error (label ++ " index '" ++ raw ++ "' is out of bounds")
      else
        .ok resolved.toNat

/-- Rust's `str::split('/')` over the token's character list. -/
def split_slash_chars (cs : List Char) : List (List Char) :=
  match cs with
  | [] => [[]]
  | c :: rest =>
    let r := split_slash_chars rest
    if c = '/' then [] :: r
    else (c :: r.headD []) :: r.tail

/-- Rust's `str::starts_with('#')`: the first character is `#`. -/
def starts_with_hash (t : String) : Bool :=
  match t.toList with
  | [] => false
  | c :: _ => c = '#'

/-- `parse_face_vertex` from index.rs lines 12-58: split a face token on
`/` into `p`, `p/t`, `p//n` or `p/t/n` and resolve each present field. -/
def parse_face_vertex (token : String) (positions_len texcoords_len
    normals_len : Nat) : Except String FaceVertex := do
  let fields := split_slash_chars token.toList
  if fields = [] ∨ fields.length > 3 then
    throw ("invalid face vertex token '" ++ token ++ "'")
  else if fields.headD [] = [] then
    throw ("missing vertex position index in face token '" ++ token ++ "'")
  else
    let position_index ← parse_obj_index (String.mk (fields.headD []))
      positions_len "position"
    let texcoord_index ←
      if fields.length > 1 ∧ fields.getD 1 [] ≠ [] then
        (parse_obj_index (String.mk (fields.getD 1 [])) texcoords_len
          "texcoord").map some
      else pure none
    let normal_index ←
      if fields.length > 2 ∧ fields.getD 2 [] ≠ [] then
        (parse_obj_index (String.mk (fields.getD 2 [])) normals_len
          "normal").map some
      else pure none
    pure (position_index, texcoord_index, normal_index)

/-- Whether an `Except` is an error. -/
def isErr {ε α : Type} (e : Except ε α) : Bool :=
  match e with
  | .error _ => true
  | .ok _ => false

/-! ## OBJ load pipeline — `src/loaders/obj/parse_obj.rs`

The Rust `load` reads a file line by line.  The embedding takes the input
as a list of already-tokenized directives: numeric components of `v`, `vn`
and `vt` lines arrive pre-parsed as rationals (their float-literal syntax
is not claim-relevant), while `f`, `usemtl` and `mtllib` keep their raw
tokens so that index parsing and inline-`#`-comment truncation stay
exactly as in the source.  The `HashMap<Option<String>, _>` of face
buckets is modelled as an insertion-ordered association list, and the MTL
file system is an explicit oracle from file name to parsed table. -/

/-- A point, `[f32; 3]` in the source. -/
abbrev Vec3q := ℚ × ℚ × ℚ

/-- A texture coordinate, `[f32; 2]` in the source. -/
abbrev Vec2q := ℚ × ℚ

/-- `ObjMaterialData` from types.rs lines 22-27. -/
structure ObjMaterialData where
  name : String
  diffuse_texture : Option String := none
  specular_texture : Option String := none
  normal_texture : Option String := none
deriving DecidableEq

/-- `ObjMeshData` from types.rs lines 8-14 (flat float arrays). -/
structure ObjMeshData where
  positions : List ℚ := []
  normals : List ℚ := []
  texcoords : List ℚ := []
  indices : List Nat := []
  material_id : Option Nat := none
deriving DecidableEq

/-- `ObjObjectData` from types.rs lines 17-19. -/
structure ObjObjectData where
  mesh : ObjMeshData
deriving DecidableEq

/-- `ObjSceneData` from types.rs lines 30-33. -/
structure ObjSceneData where
  objects : List ObjObjectData
  materials : List ObjMaterialData
deriving DecidableEq

/-- One parsed line of an OBJ file, as dispatched by the `match parts[0]`
of parse_obj.rs lines 42-140. -/
inductive ObjDirective where
  /-- a `v` line, with its numeric components after the keyword -/
  | v (comps : List ℚ)
  /-- a `vn` line -/
  | vn (comps : List ℚ)
  /-- a `vt` line -/
  | vt (comps : List ℚ)
  /-- an `f` line, with the raw corner tokens after the keyword -/
  | f (tokens : List String)
  /-- a `usemtl` line, with the raw tokens after the keyword -/
  | usemtl (tokens : List String)
  /-- a `mtllib` line, with the raw tokens after the keyword -/
  | mtllib (tokens : List String)
  /-- a blank line, a `#` comment, or an unrecognized keyword -/
  | other

/-- The per-material face buckets, `MaterialFaces` in parse_obj.rs line
10, as an insertion-ordered association list. -/
abbrev MaterialFaces := List (Option String × List (List FaceVertex))

/-- `material_faces.entry(key).or_default().push(face)`: append `face` to
the bucket keyed `key`, creating the bucket if absent. -/
def push_face (buckets : MaterialFaces) (key : Option String)
    (face : List FaceVertex) : MaterialFaces :=
  match buckets with
  | [] => [(key, [face])]
  | (k, fs) :: rest =>
    if k = key then (k, fs ++ [face]) :: rest
    else (k, fs) :: push_face rest key face

/-- The faces of the bucket keyed `key` (empty when the bucket is absent). -/
def bucket_faces (buckets : MaterialFaces) (key : Option String) :
    List (List FaceVertex) :=
  match buckets with
  | [] => []
  | (k, fs) :: rest => if k = key then fs else bucket_faces rest key

/-- The mutable state of `load`'s line loop (parse_obj.rs lines 17-23). -/
structure LoadState where
  positions : List Vec3q := []
  normals : List Vec3q := []
  texcoords : List Vec2q := []
  current_material : Option String := none
  material_faces : MaterialFaces := []
  mtl_files : List String := []

/-- `collect_directive_values` from parse_obj.rs lines 211-239, applied to
the tokens after the keyword: keep tokens up to the first inline `#`
comment, and error when none remain. -/
def collect_directive_values (tokens : List String) (directive : String) :
    Except String (List String) :=
  let values := tokens.takeWhile (fun t => !starts_with_hash t)
  if values = [] then
    .error ("directive '" ++ directive ++ "' is missing a required value")
  else .ok values

/-- The naive fan of parse_obj.rs lines 102-103: for `i` in
`1 .. face.len() - 1`, the triangle `[face[0], face[i], face[i + 1]]`. -/
def fan_triangles (face : List FaceVertex) : List (List FaceVertex) :=
  (List.range' 1 (face.length - 2)).map fun i =>
    [face.headD (0, none, none), face.getD i (0, none, none),
      face.getD (i + 1) (0, none, none)]

/-- The face-accumulation step of parse_obj.rs lines 101-120: with
`triangulate` set, a face of more than 3 corners is fanned into triangles
pushed one by one; otherwise the face is pushed whole, after the
3-corner check when `triangulate` is unset. -/
def process_face (triangulate : Bool) (face : List FaceVertex)
    (st : LoadState) : Except String LoadState :=
  if triangulate ∧ face.length > 3 then
    let pushed := (fan_triangles face).foldl
      (fun b tri => push_face b st.current_material tri) st.material_faces
    .ok { st with material_faces := pushed }
  else if ¬ triangulate ∧ face.length ≠ 3 then
    .error "non-triangular face requires triangulate=true"
  else
    let pushed := push_face st.material_faces st.current_material face
    .ok { st with material_faces := pushed }

/-- One iteration of `load`'s line loop (parse_obj.rs lines 42-140). -/
def load_step (triangulate : Bool) (st : LoadState) (d : ObjDirective) :
    Except String LoadState :=
  match d with
  | .v comps =>
    if comps.length < 3 then
      .error "vertex position requires 3 components"
    else
      let ps := st.positions ++ [(comps.getD 0 0, comps.getD 1 0, comps.getD 2 0)]
      .ok { st with positions := ps }
  | .vn comps =>
    if comps.length < 3 then
      .error "vertex normal requires 3 components"
    else
      let ns := st.normals ++ [(comps.getD 0 0, comps.getD 1 0, comps.getD 2 0)]
      .ok { st with normals := ns }
  | .vt comps =>
    if comps.length < 2 then
      .error "texture coordinate requires at least 2 components"
    else
      let ts := st.texcoords ++ [(comps.getD 0 0, comps.getD 1 0)]
      .ok { st with texcoords := ts }
  | .f tokens =>
    if tokens.length < 3 then
      .error "face requires at least 3 vertices"
    else do
      let face ← (tokens.takeWhile (fun t => !starts_with_hash t)).mapM
        fun t => parse_face_vertex t st.positions.length
          st.texcoords.length st.normals.length
      process_face triangulate face st
  | .usemtl tokens => do
    let values ← collect_directive_values tokens "usemtl"
    match values with
    | [] => .error "directive 'usemtl' is missing a required value"
    | name :: _ => .ok { st with current_material := some name }
  | .mtllib tokens => do
    let values ← collect_directive_values tokens "mtllib"
    .ok { st with mtl_files := st.mtl_files ++ values }
  | .other => .ok st

/-- The MTL loading loop of parse_obj.rs lines 143-150: each listed file
is loaded through the oracle and the resulting tables are concatenated in
file-list order; the first failure aborts. -/
def load_materials_loop
    (mtl_tables : String → Except String (List ObjMaterialData))
    (files : List String) (acc : List ObjMaterialData) :
    Except String (List ObjMaterialData) :=
  match files with
  | [] => .ok acc
  | f :: rest =>
    match mtl_tables f with
    | .error e => .error e
    | .ok table => load_materials_loop mtl_tables rest (acc ++ table)

/-- `materials` after the loop, starting from the empty table. -/
def load_materials
    (mtl_tables : String → Except String (List ObjMaterialData))
    (files : List String) : Except String (List ObjMaterialData) :=
  load_materials_loop mtl_tables files []

/-- The name-to-id `HashMap` of parse_obj.rs lines 152-156, as its lookup
function: `collect` inserts `(name, i)` in table order, so on duplicate
names the later (larger) index overwrites the earlier one. -/
def material_map_lookup (materials : List ObjMaterialData)
    (name : String) : Option Nat :=
  materials.enum.foldl
    (fun acc (p : Nat × ObjMaterialData) =>
      if p.2.name = name then some p.1 else acc) none

/-- The bucket material resolution of parse_obj.rs lines 161-163. -/
def bucket_material_id (materials : List ObjMaterialData)
    (mat_name : Option String) : Option Nat :=
  mat_name.bind fun name => material_map_lookup materials name

/-- The per-corner body of the assembly loop (parse_obj.rs lines
181-195).  Out-of-range element indices cannot occur on `load`'s own
buckets (`parse_face_vertex` validates them against the running counts,
which only grow), so the `getD` defaults are never consulted there. -/
def add_corner (positions normals : List Vec3q) (texcoords : List Vec2q)
    (acc : ObjMeshData × Nat × List (Option Vec2q)) (c : FaceVertex) :
    ObjMeshData × Nat × List (Option Vec2q) :=
  let (mesh, next_index, vertex_texcoords) := acc
  let p := positions.getD c.1 (0, 0, 0)
  let nrm := (c.2.2.map fun ni => normals.getD ni (0, 0, 0)).getD (0, 0, 0)
  let t := c.2.1.map fun ti => texcoords.getD ti (0, 0)
  ({ mesh with
      positions := mesh.positions ++ [p.1, p.2.1, p.2.2],
      normals := mesh.normals ++ [nrm.1, nrm.2.1, nrm.2.2],
      indices := mesh.indices ++ [next_index] },
    next_index + 1, vertex_texcoords ++ [t])

/-- The `for face in mat_faces` loop of parse_obj.rs lines 173-196: abort
on a non-triangular face, otherwise fold every corner into the mesh. -/
def assemble_faces (positions normals : List Vec3q)
    (texcoords : List Vec2q) (faces : List (List FaceVertex))
    (acc : ObjMeshData × Nat × List (Option Vec2q)) :
    Except String (ObjMeshData × Nat × List (Option Vec2q)) :=
  match faces with
  | [] => .ok acc
  | face :: rest =>
    if face.length ≠ 3 then
      .error "Internal OBJ loader error: non-triangulated face reached mesh assembly"
    else
      assemble_faces positions normals texcoords rest
        (face.foldl (add_corner positions normals texcoords) acc)

/-- The per-bucket assembly of parse_obj.rs lines 160-205: every corner of
every (already triangulated) face becomes a fresh vertex; the texcoord
buffer is published only when every corner resolved one. -/
def assemble_bucket (positions normals : List Vec3q)
    (texcoords : List Vec2q) (material_id : Option Nat)
    (faces : List (List FaceVertex)) : Except String ObjMeshData := do
  let acc ← assemble_faces positions normals texcoords faces
    ({ material_id := material_id }, 0, [])
  let (mesh, _, vertex_texcoords) := acc
  if vertex_texcoords.all (fun uv => uv.isSome) then
    let flat := vertex_texcoords.foldl
      (fun l uv => l ++ (match uv with
        | some (u, v) => [u, v]
        | none => [])) []
    pure { mesh with texcoords := flat }
  else
    pure mesh

/-- The `objects.push` loop of parse_obj.rs lines 158-206, one bucket at a
time. -/
def build_objects (positions normals : List Vec3q) (texcoords : List Vec2q)
    (materials : List ObjMaterialData)
    (buckets : MaterialFaces) (objs : List ObjObjectData) :
    Except String (List ObjObjectData) :=
  match buckets with
  | [] => .ok objs
  | bucket :: rest =>
    match assemble_bucket positions normals texcoords
        (bucket_material_id materials bucket.1) bucket.2 with
    | .error e => .error e
    | .ok mesh =>
      build_objects positions normals texcoords materials rest
        (objs ++ [ObjObjectData.mk mesh])

/-- `load` from parse_obj.rs lines 12-209, over pre-tokenized directives
and an MTL file oracle.  The `HashMap` bucket iteration order of the
source is unspecified; the embedding walks buckets in insertion order,
one admissible order. -/
def load (triangulate : Bool) (directives : List ObjDirective)
    (mtl_tables : String → Except String (List ObjMaterialData)) :
    Except String ObjSceneData := do
  let st ← directives.foldlM (fun st d => load_step triangulate st d) {}
  let materials ← load_materials mtl_tables st.mtl_files
  let objects ← build_objects st.positions st.normals st.texcoords materials
    st.material_faces []
  pure { objects := objects, materials := materials }

/-- Flatten a point into the three floats pushed by `extend_from_slice`. -/
def flat3 (v : Vec3q) : List ℚ := [v.1, v.2.1, v.2.2]

/-- Flatten a texcoord into the two floats pushed by `extend_from_slice`. -/
def flat2 (v : Vec2q) : List ℚ := [v.1, v.2]

/-- The normal written for a corner (parse_obj.rs lines 185-187): the
referenced normal, or the zero vector when absent. -/
def corner_normal (normals : List Vec3q) (c : FaceVertex) : Vec3q :=
  (c.2.2.map fun ni => normals.getD ni (0, 0, 0)).getD (0, 0, 0)

/-- The texcoord recorded for a corner (parse_obj.rs line 190). -/
def corner_tex (texcoords : List Vec2q) (c : FaceVertex) : Option Vec2q :=
  c.2.1.map fun ti => texcoords.getD ti (0, 0)

/-- The mesh-shape and material-id checks of `build_scene_model`
(model_builder.rs lines 29-46 and 101-110): the "malformed mesh" and
"unknown material id" error branches, in source order, returning the
resolved material on success. -/
def mesh_checks (materials : List ObjMaterialData) (mesh : ObjMeshData)
    (model_path : String) : Except String (Option ObjMaterialData) :=
  if mesh.positions.length % 3 ≠ 0 then
    .error "Malformed OBJ mesh: positions array length is not a multiple of 3"
  else if mesh.normals ≠ [] ∧ mesh.normals.length ≠ mesh.positions.length then
    .error "Malformed OBJ mesh: normals array length must match positions length"
  else if mesh.texcoords ≠ [] ∧
      mesh.texcoords.length ≠ (mesh.positions.length / 3) * 2 then
    .error "Malformed OBJ mesh: texcoords array length must be vertex_count * 2"
  else
    match mesh.material_id with
    | none => .ok none
    | some material_id =>
      match materials[material_id]? with
      | none => .error ("OBJ mesh references unknown material id while loading "
          ++ model_path)
      | some mat => .ok (some mat)

/-! ## Face triangulator — `src/loaders/obj/triangulate.rs`

The source computes over `f64`; the embedding uses exact rationals.  Every
branch condition below is the source's condition verbatim (with
`EPSILON = 1e-9`), and the control-flow properties proved about them do
not depend on rounding. -/

/-- `EPSILON` from triangulate.rs line 3. -/
def EPSILON : ℚ := 1 / 1000000000

/-- `TriangulationOutcome` from triangulate.rs lines 5-9. -/
inductive TriangulationOutcome where
  | Robust (triangles : List (Nat × Nat × Nat))
  | FallbackFan
deriving DecidableEq

/-- The position referenced by face corner `i`:
`positions[face[i].0]` (triangulate.rs line 24). -/
def corner_pos (positions : List Vec3q) (face : List FaceVertex)
    (i : Nat) : Vec3q :=
  positions.getD (face.getD i (0, none, none)).1 (0, 0, 0)

/-- `nearly_equal3` from triangulate.rs lines 93-97. -/
def nearly_equal3 (a b : Vec3q) : Bool :=
  decide (|a.1 - b.1| ≤ EPSILON ∧ |a.2.1 - b.2.1| ≤ EPSILON ∧
    |a.2.2 - b.2.2| ≤ EPSILON)

/-- The consecutive-duplicate drop of triangulate.rs lines 22-33. -/
def cleaned_pass1 (positions : List Vec3q) (face : List FaceVertex) :
    List Nat :=
  (List.range face.length).foldl
    (fun kept face_index =>
      let isDup := (kept.getLast?.map fun prev =>
        nearly_equal3 (corner_pos positions face face_index)
          (corner_pos positions face prev)).getD false
      if isDup then kept else kept ++ [face_index])
    []

/-- `cleaned_original_indices` after the trailing-duplicate pop of
triangulate.rs lines 35-43. -/
def cleaned_original_indices (positions : List Vec3q)
    (face : List FaceVertex) : List Nat :=
  let kept := cleaned_pass1 positions face
  if kept.length ≥ 2 then
    if nearly_equal3 (corner_pos positions face (kept.headD 0))
        (corner_pos positions face (kept.getLast?.getD 0)) then
      kept.dropLast
    else kept
  else kept

/-- `newell_normal` from triangulate.rs lines 99-113. -/
def newell_normal (points : List Vec3q) : Vec3q :=
  let len := points.length
  (List.range len).foldl
    (fun normal i =>
      let current := points.getD i (0, 0, 0)
      let next := points.getD ((i + 1) % len) (0, 0, 0)
      (normal.1 + (current.2.1 - next.2.1) * (current.2.2 + next.2.2),
       normal.2.1 + (current.2.2 - next.2.2) * (current.1 + next.1),
       normal.2.2 + (current.1 - next.1) * (current.2.1 + next.2.1)))
    (0, 0, 0)

/-- `project_to_2d` from triangulate.rs lines 115-127: drop the axis of
largest-magnitude normal component. -/
def project_to_2d (points : List Vec3q) (normal : Vec3q) : List Vec2q :=
  let ax := |normal.1|
  let ay := |normal.2.1|
  let az := |normal.2.2|
  if ax ≥ ay ∧ ax ≥ az then points.map fun p => (p.2.1, p.2.2)
  else if ay ≥ az then points.map fun p => (p.1, p.2.2)
  else points.map fun p => (p.1, p.2.1)

/-- `polygon_signed_area` from triangulate.rs lines 129-140 (shoelace). -/
def polygon_signed_area (points : List Vec2q) : ℚ :=
  let len := points.length
  let sum := (List.range len).foldl
    (fun sum i =>
      let a := points.getD i (0, 0)
      let b := points.getD ((i + 1) % len) (0, 0)
      sum + (a.1 * b.2 - b.1 * a.2))
    0
  (1 / 2) * sum

/-- `orient` from triangulate.rs lines 197-199. -/
def orient (a b c : Vec2q) : ℚ :=
  (b.1 - a.1) * (c.2 - a.2) - (b.2 - a.2) * (c.1 - a.1)

/-- `on_segment` from triangulate.rs lines 190-195 (a bounding-box test
with epsilon slack). -/
def on_segment (a b p : Vec2q) : Bool :=
  decide (p.1 ≥ min a.1 b.1 - EPSILON ∧ p.1 ≤ max a.1 b.1 + EPSILON ∧
    p.2 ≥ min a.2 b.2 - EPSILON ∧ p.2 ≤ max a.2 b.2 + EPSILON)

/-- `segments_intersect` from triangulate.rs lines 171-188: proper
crossing (orientation sign change on both segments) or near-collinear
endpoint containment. -/
def segments_intersect (a b c d : Vec2q) : Bool :=
  let o1 := orient a b c
  let o2 := orient a b d
  let o3 := orient c d a
  let o4 := orient c d b
  let proper_intersection := decide
    (((o1 > EPSILON ∧ o2 < -EPSILON) ∨ (o1 < -EPSILON ∧ o2 > EPSILON)) ∧
     ((o3 > EPSILON ∧ o4 < -EPSILON) ∨ (o3 < -EPSILON ∧ o4 > EPSILON)))
  if proper_intersection then true
  else
    (decide (|o1| ≤ EPSILON) && on_segment a b c) ||
    (decide (|o2| ≤ EPSILON) && on_segment a b d) ||
    (decide (|o3| ≤ EPSILON) && on_segment c d a) ||
    (decide (|o4| ≤ EPSILON) && on_segment c d b)

/-- `has_self_intersections` from triangulate.rs lines 142-169: scan pairs
of edges `(i, j)` with `j > i`, skipping pairs that share an endpoint
(including the wrap adjacency). -/
def has_self_intersections (points : List Vec2q) : Bool :=
  let len := points.length
  (List.range len).any fun i =>
    let i_next := (i + 1) % len
    let a := points.getD i (0, 0)
    let b := points.getD i_next (0, 0)
    (List.range' (i + 1) (len - (i + 1))).any fun j =>
      let j_next := (j + 1) % len
      let c := points.getD j (0, 0)
      let d := points.getD j_next (0, 0)
      if i = j ∨ i_next = j ∨ j_next = i then false
      else if i = 0 ∧ j_next = 0 then false
      else segments_intersect a b c d

/-- `is_convex` from triangulate.rs lines 258-265. -/
def is_convex (prev curr next : Vec2q) (ccw : Bool) : Bool :=
  let cross := orient prev curr next
  if ccw then decide (cross > EPSILON) else decide (cross < -EPSILON)

/-- `point_in_triangle` from triangulate.rs lines 267-276. -/
def point_in_triangle (p a b c : Vec2q) : Bool :=
  let d1 := orient p a b
  let d2 := orient p b c
  let d3 := orient p c a
  let has_neg := decide (d1 < -EPSILON ∨ d2 < -EPSILON ∨ d3 < -EPSILON)
  let has_pos := decide (d1 > EPSILON ∨ d2 > EPSILON ∨ d3 > EPSILON)
  !(has_neg && has_pos)

/-- One scan of the remaining ring (triangulate.rs lines 209-243): the
first index whose corner is a valid ear — convex, non-degenerate, and
containing no other remaining corner. -/
def find_ear (points : List Vec2q) (ccw : Bool) (remaining : List Nat) :
    Option Nat :=
  let len := remaining.length
  (List.range len).find? fun i =>
    let prev := remaining.getD ((i + len - 1) % len) 0
    let curr := remaining.getD i 0
    let next := remaining.getD ((i + 1) % len) 0
    is_convex (points.getD prev (0, 0)) (points.getD curr (0, 0))
        (points.getD next (0, 0)) ccw &&
    decide (|orient (points.getD prev (0, 0)) (points.getD curr (0, 0))
        (points.getD next (0, 0))| > EPSILON) &&
    !(remaining.any fun candidate =>
      if candidate = prev ∨ candidate = curr ∨ candidate = next then false
      else point_in_triangle (points.getD candidate (0, 0))
        (points.getD prev (0, 0)) (points.getD curr (0, 0))
        (points.getD next (0, 0)))

/-- The `while remaining.len() > 3` loop of `ear_clip` (triangulate.rs
lines 205-255). -/
def ear_clip_loop (points : List Vec2q) (ccw : Bool) (remaining : List Nat)
    (triangles : List (Nat × Nat × Nat)) :
    Option (List (Nat × Nat × Nat)) :=
  if remaining.length > 3 then
    match hfe : find_ear points ccw remaining with
    | none => none
    | some i =>
      let len := remaining.length
      let prev := remaining.getD ((i + len - 1) % len) 0
      let curr := remaining.getD i 0
      let next := remaining.getD ((i + 1) % len) 0
      ear_clip_loop points ccw (remaining.eraseIdx i)
        (triangles ++ [(prev, curr, next)])
  else if remaining.length = 3 then
    some (triangles ++
      [(remaining.getD 0 0, remaining.getD 1 0, remaining.getD 2 0)])
  else none
termination_by remaining.length
decreasing_by
  have hi : i ∈ List.range remaining.length :=
    List.mem_of_find?_eq_some hfe
  have hlt : i < remaining.length := List.mem_range.mp hi
  have := List.length_eraseIdx_of_lt hlt
  omega

/-- `ear_clip` from triangulate.rs lines 201-256. -/
def ear_clip (points : List Vec2q) (ccw : Bool) :
    Option (List (Nat × Nat × Nat)) :=
  ear_clip_loop points ccw (List.range points.length) []

/-- The cleaned corner positions of triangulate.rs lines 49-52. -/
def cleaned_positions_of (face : List FaceVertex)
    (positions : List Vec3q) : List Vec3q :=
  (cleaned_original_indices positions face).map (corner_pos positions face)

/-- The projected 2D polygon `triangulate_face` works on (triangulate.rs
line 60). -/
def triangulate_projected (face : List FaceVertex)
    (positions : List Vec3q) : List Vec2q :=
  project_to_2d (cleaned_positions_of face positions)
    (newell_normal (cleaned_positions_of face positions))

/-- The squared magnitude of the Newell normal (triangulate.rs line 55). -/
def normal_len2_of (face : List FaceVertex) (positions : List Vec3q) : ℚ :=
  let normal := newell_normal (cleaned_positions_of face positions)
  normal.1 * normal.1 + normal.2.1 * normal.2.1 + normal.2.2 * normal.2.2

/-- `triangulate_face` from triangulate.rs lines 17-87.  The source's
local `cleaned`, `normal`, `projected` and `signed_area` bindings appear
here as the hoisted definitions above. -/
def triangulate_face (face : List FaceVertex) (positions : List Vec3q) :
    TriangulationOutcome :=
  if face.length < 3 then .FallbackFan
  else if (cleaned_original_indices positions face).length < 3 then
    .FallbackFan
  else if normal_len2_of face positions ≤ EPSILON then .FallbackFan
  else if |polygon_signed_area (triangulate_projected face positions)| ≤
      EPSILON then .FallbackFan
  else if has_self_intersections (triangulate_projected face positions) then
    .FallbackFan
  else
    match ear_clip (triangulate_projected face positions)
        (decide (polygon_signed_area (triangulate_projected face positions) > 0)) with
    | none => .FallbackFan
    | some local_triangles =>
      .Robust (local_triangles.map fun t =>
        ((cleaned_original_indices positions face).getD t.1 0,
          (cleaned_original_indices positions face).getD t.2.1 0,
          (cleaned_original_indices positions face).getD t.2.2 0))

/-! ## Scene model and face shading — `src/math.rs`, `src/scene/model.rs`,
`src/scene/coloring.rs`, `src/scene/bounds.rs` -/

/-- `Vector3` from math.rs (f32 fields as rationals). -/
structure Vector3 where
  x : ℚ
  y : ℚ
  z : ℚ
deriving DecidableEq

/-- `Vector3::zero`. -/
def Vector3.zero : Vector3 := ⟨0, 0, 0⟩

/-- `Vector2` from math.rs. -/
structure Vector2 where
  x : ℚ
  y : ℚ
deriving DecidableEq

/-- `Vector2::zero`. -/
def Vector2.zero : Vector2 := ⟨0, 0⟩

/-- `Vertex` from model.rs lines 8-16, with the all-zero `Default` of
lines 18-30 as field defaults. -/
structure Vertex where
  position : Vector3 := Vector3.zero
  normal : Vector3 := Vector3.zero
  tex_coords : Vector2 := Vector2.zero
  tangent : Vector3 := Vector3.zero
  bitangent : Vector3 := Vector3.zero
  color : Vector3 := Vector3.zero
  new_color : Vector3 := Vector3.zero
deriving DecidableEq

/-- `TextureKind` from model.rs lines 33-37. -/
inductive TextureKind where
  | Diffuse
  | Specular
  | Normal
deriving DecidableEq

/-- `SceneTextureRef` from model.rs lines 50-53. -/
structure SceneTextureRef where
  path : String
  kind : TextureKind
deriving DecidableEq

/-- `SceneMesh` from model.rs lines 56-61. -/
structure SceneMesh where
  vertices : List Vertex
  indices : List Nat
  textures : List SceneTextureRef
  has_uv_mapping : Bool
deriving DecidableEq

/-- `face_brightness` from coloring.rs lines 5-7:
`((i % 11) / 11) * 0.6 + 0.4`. -/
def face_brightness (face_index : Nat) : ℚ :=
  ((face_index % 11 : Nat) : ℚ) / 11 * (6 / 10) + 4 / 10

/-- The per-triangle color of coloring.rs lines 12-16 and 29-33: base
color times brightness, clamped per channel at 1. -/
def shaded_color (base : Vector3) (face_index : Nat) : Vector3 :=
  ⟨min (base.x * face_brightness face_index) 1,
    min (base.y * face_brightness face_index) 1,
    min (base.z * face_brightness face_index) 1⟩

/-- Rust's `chunks_exact(3)`: consecutive triples, remainder dropped. -/
def chunks_exact3 (l : List Nat) : List (List Nat) :=
  match l with
  | a :: b :: c :: rest => [a, b, c] :: chunks_exact3 rest
  | _ => []

/-- The inner `for &index in triangle` writes of `apply_face_shading`
(coloring.rs lines 18-22).  The source indexes `vertices[index]` and
would panic out of bounds; `List.set` is a no-op there, and the theorems
below assume the index in range. -/
def write_face_colors (vertices : List Vertex) (triangle : List Nat)
    (color : Vector3) : List Vertex :=
  match triangle with
  | [] => vertices
  | index :: rest =>
    write_face_colors
      (vertices.set index
        { vertices.getD index {} with color := color, new_color := color })
      rest color

/-- The chunk loop of `apply_face_shading`, carrying the running
`face_index`. -/
def apply_shading_loop (base_color : Vector3) (face_index : Nat)
    (chunks : List (List Nat)) (vertices : List Vertex) : List Vertex :=
  match chunks with
  | [] => vertices
  | triangle :: rest =>
    apply_shading_loop base_color (face_index + 1) rest
      (write_face_colors vertices triangle
        (shaded_color base_color face_index))

/-- `apply_face_shading` from coloring.rs lines 9-24. -/
def apply_face_shading (vertices : List Vertex) (indices : List Nat)
    (base_color : Vector3) : List Vertex :=
  apply_shading_loop base_color 0 (chunks_exact3 indices) vertices

/-- The inner writes of `apply_new_color` (coloring.rs lines 35-37):
only the pending `new_color` field changes. -/
def write_face_new_colors (vertices : List Vertex) (triangle : List Nat)
    (color : Vector3) : List Vertex :=
  match triangle with
  | [] => vertices
  | index :: rest =>
    write_face_new_colors
      (vertices.set index
        { vertices.getD index {} with new_color := color })
      rest color

/-- The chunk loop of `apply_new_color`. -/
def apply_new_color_loop (color : Vector3) (face_index : Nat)
    (chunks : List (List Nat)) (vertices : List Vertex) : List Vertex :=
  match chunks with
  | [] => vertices
  | triangle :: rest =>
    apply_new_color_loop color (face_index + 1) rest
      (write_face_new_colors vertices triangle
        (shaded_color color face_index))

/-- `apply_new_color` from coloring.rs lines 26-39. -/
def apply_new_color (vertices : List Vertex) (indices : List Nat)
    (color : Vector3) : List Vertex :=
  apply_new_color_loop color 0 (chunks_exact3 indices) vertices

/-- `min_max_axis` from bounds.rs lines 15-29. -/
def min_max_axis (meshes : List SceneMesh) (axis_fn : ℚ → ℚ → ℚ → ℚ) :
    Option (ℚ × ℚ) :=
  (meshes.flatMap fun mesh => mesh.vertices).foldl
    (fun acc vertex =>
      let value := axis_fn vertex.position.x vertex.position.y
        vertex.position.z
      match acc with
      | some (mn, mx) => some (min mn value, max mx value)
      | none => some (value, value))
    none

/-- `center_from_range` from bounds.rs lines 31-33. -/
def center_from_range (mn mx : ℚ) : ℚ := (mn + mx) * (1 / 2)

/-- `center_all_axes` from bounds.rs lines 3-13. -/
def center_all_axes (meshes : List SceneMesh) : ℚ × ℚ × ℚ :=
  let x := (min_max_axis meshes fun x _ _ => x).getD (0, 0)
  let y := (min_max_axis meshes fun _ y _ => y).getD (0, 0)
  let z := (min_max_axis meshes fun _ _ z => z).getD (0, 0)
  (center_from_range x.1 x.2, center_from_range y.1 y.2,
    center_from_range z.1 z.2)

/-- `SceneModel` from model.rs lines 63-68. -/
structure SceneModel where
  meshes : List SceneMesh
  base_color : Vector3
  center : Vector3

/-- `SceneModel::new` from model.rs lines 71-83: shade every mesh from
the base color, then cache the geometric center. -/
def SceneModel.new (meshes : List SceneMesh) (base_color : Vector3) :
    SceneModel :=
  let shaded := meshes.map fun mesh =>
    { mesh with vertices :=
        apply_face_shading mesh.vertices mesh.indices base_color }
  let c := center_all_axes shaded
  { meshes := shaded, base_color := base_color,
    center := ⟨c.1, c.2.1, c.2.2⟩ }

/-- `SceneModel::change_color` from model.rs lines 89-94: store the new
base color and recompute every mesh's pending vertex colors in place. -/
def SceneModel.change_color (model : SceneModel) (new_color : Vector3) :
    SceneModel :=
  { model with
    base_color := new_color,
    meshes := model.meshes.map fun mesh =>
      { mesh with vertices :=
          apply_new_color mesh.vertices mesh.indices new_color } }

/-! ## Texture path resolution — `src/scene/model_builder.rs` -/

/-- `Path::join` for the relative texture paths the claims use: an empty
base keeps the path, otherwise the components are separated by `/`.
(Absolute right-hand paths, which Rust's `join` would substitute
wholesale, do not occur in material files.) -/
def path_join (base_dir relative_path : String) : String :=
  if base_dir = "" then relative_path
  else base_dir ++ "/" ++ relative_path

/-- `resolve_material_path` from model_builder.rs lines 152-157; the
invalid-UTF-8 failure of the source cannot occur on our strings. -/
def resolve_material_path (base_dir relative_path : String) :
    Except String String :=
  .ok (path_join base_dir relative_path)

/-- The file-name component of a path: the characters after the last `/`. -/
def file_name_chars (path : String) : List Char :=
  (path.toList.reverse.takeWhile (fun c => c ≠ '/')).reverse

/-- `Path::extension`: the file-name suffix after the last `.`; `none`
when there is no dot, or when the only dot leads the name. -/
def path_extension_chars (path : String) : Option (List Char) :=
  let name := file_name_chars path
  let after := name.reverse.takeWhile (fun c => c ≠ '.')
  if after.length = name.length then none
  else if after.length + 1 = name.length then none
  else some after.reverse

/-- ASCII lowercasing of one character. -/
def ascii_lower (c : Char) : Char :=
  if 'A' ≤ c ∧ c ≤ 'Z' then Char.ofNat (c.toNat + 32) else c

/-- `is_bmp_path` from model_builder.rs lines 196-202: the extension,
ASCII case ignored, is `bmp`. -/
def is_bmp_path (path : String) : Bool :=
  match path_extension_chars path with
  | none => false
  | some ext => decide (ext.map ascii_lower = ['b', 'm', 'p'])

/-- `resolve_optional_bmp_material_path` from model_builder.rs lines
159-165. -/
def resolve_optional_bmp_material_path (base_dir relative_path : String) :
    Option String :=
  if is_bmp_path relative_path then
    (resolve_material_path base_dir relative_path).toOption
  else none

/-- `resolve_diffuse_texture_path` from model_builder.rs lines 167-194:
a non-empty caller-supplied fallback always wins; otherwise a non-empty
material diffuse map is used — required to be `.bmp` — and resolved
against the model directory; otherwise the resolution is a hard error. -/
def resolve_diffuse_texture_path (model_dir fallback_texture_path : String)
    (material : Option ObjMaterialData) (model_path : String) :
    Except String String :=
  if fallback_texture_path ≠ "" then
    .ok fallback_texture_path
  else
    match (material.bind fun mat => mat.diffuse_texture).filter
        (fun texture => decide (texture ≠ "")) with
    | some diffuse_texture =>
      if ¬ is_bmp_path diffuse_texture then
        .error ("Material diffuse texture for '" ++ model_path ++
          "' must be a .bmp file when no CLI fallback texture is provided: "
          ++ diffuse_texture)
      else
        resolve_material_path model_dir diffuse_texture
    | none =>
      .error ("No diffuse texture available for '" ++ model_path ++
        "' (expected CLI fallback BMP or material map_Kd BMP)")

/-! ## BMP decoding — `src/my_bmp_loader.rs` and
`src/loaders/bmp/image.rs`

The legacy loader overlays packed structs over raw bytes; the embedding
decodes the same little-endian fields explicitly from the byte list.
Rust casts follow 64-bit `as` semantics (wrap modulo the target width),
and a `panic!` is an explicit outcome constructor. -/

/-- Little-endian 16-bit read at `pos` (0 beyond the end, which the
callers never exercise because `read_exact` checked the length). -/
def read_u16 (bytes : List Nat) (pos : Nat) : Nat :=
  bytes.getD pos 0 + 256 * bytes.getD (pos + 1) 0

/-- Little-endian 32-bit read at `pos`. -/
def read_u32 (bytes : List Nat) (pos : Nat) : Nat :=
  bytes.getD pos 0 + 256 * bytes.getD (pos + 1) 0 +
    65536 * bytes.getD (pos + 2) 0 + 16777216 * bytes.getD (pos + 3) 0

/-- Two's-complement decode of a 32-bit value (`i32` fields). -/
def as_i32 (v : Nat) : Int :=
  if v < 2147483648 then (v : Int) else (v : Int) - 4294967296

/-- Rust `as usize` on an `i32`-ranged value (sign-extend, wrap 2^64). -/
def as_usize (v : Int) : Nat := (v % 18446744073709551616).toNat

/-- Rust `as u32` on an `i32`-ranged value (wrap 2^32). -/
def as_u32 (v : Int) : Nat := (v % 4294967296).toNat

/-- `BMPFileHeader` from my_bmp_loader.rs lines 9-16 (packed, 14 bytes). -/
structure BMPFileHeader where
  file_type : Nat
  file_size : Nat
  reserved1 : Nat
  reserved2 : Nat
  offset : Nat
deriving DecidableEq

/-- `BMPInfoHeader` from my_bmp_loader.rs lines 30-43 (packed, 40 bytes). -/
structure BMPInfoHeader where
  size : Nat
  width : Int
  height : Int
  planes : Nat
  bit_count : Nat
  compression : Nat
  size_image : Nat
  x_pixels_per_meter : Int
  y_pixels_per_meter : Int
  colors_used : Nat
  colors_important : Nat
deriving DecidableEq

/-- `BMPColorHeader` from my_bmp_loader.rs lines 63-70 (packed, 20
bytes). -/
structure BMPColorHeader where
  red_mask : Nat
  green_mask : Nat
  blue_mask : Nat
  alpha_mask : Nat
  color_space_type : Nat
deriving DecidableEq

/-- The `Default` color header of my_bmp_loader.rs lines 72-82 (the
expected sRGB BGRA signature), used to initialize `BMP::new`. -/
def BMPColorHeader.default_value : BMPColorHeader :=
  { red_mask := 0x00ff0000, green_mask := 0x0000ff00,
    blue_mask := 0x000000ff, alpha_mask := 0xff000000,
    color_space_type := 0x73524742 }

/-- Decode the 14 file-header bytes. -/
def parse_file_header (b : List Nat) : BMPFileHeader :=
  { file_type := read_u16 b 0, file_size := read_u32 b 2,
    reserved1 := read_u16 b 6, reserved2 := read_u16 b 8,
    offset := read_u32 b 10 }

/-- Decode the 40 info-header bytes. -/
def parse_info_header (b : List Nat) : BMPInfoHeader :=
  { size := read_u32 b 0, width := as_i32 (read_u32 b 4),
    height := as_i32 (read_u32 b 8), planes := read_u16 b 12,
    bit_count := read_u16 b 14, compression := read_u32 b 16,
    size_image := read_u32 b 20,
    x_pixels_per_meter := as_i32 (read_u32 b 24),
    y_pixels_per_meter := as_i32 (read_u32 b 28),
    colors_used := read_u32 b 32, colors_important := read_u32 b 36 }

/-- Decode the 20 color-header bytes. -/
def parse_color_header (b : List Nat) : BMPColorHeader :=
  { red_mask := read_u32 b 0, green_mask := read_u32 b 4,
    blue_mask := read_u32 b 8, alpha_mask := read_u32 b 12,
    color_space_type := read_u32 b 16 }

/-- `File::read_exact`: `n` bytes at `pos`, or the typed short-read
failure. -/
def read_exact (bytes : List Nat) (pos n : Nat) : Option (List Nat) :=
  if pos + n ≤ bytes.length then some ((bytes.drop pos).take n) else none

/-- `BMP::check_color_header` from my_bmp_loader.rs lines 211-231: a
mask or color-space mismatch `panic!`s; the result is the panic message,
`none` on the expected sRGB BGRA signature. -/
def check_color_header (ch : BMPColorHeader) : Option String :=
  if ch.red_mask ≠ 0x00ff0000 ∨ ch.green_mask ≠ 0x0000ff00 ∨
      ch.blue_mask ≠ 0x000000ff ∨ ch.alpha_mask ≠ 0xff000000 then
    some "Unexpected color mask format! The program expects the pixel data to be in the BGRA format"
  else if ch.color_space_type ≠ 0x73524742 then
    some "Unexpected color space type! The program expects sRGB values"
  else
    none

/-- `make_stride_aligned(4)` from my_bmp_loader.rs lines 203-209: the
loop adds 1 until the stride is a multiple of 4 (at most 3 steps). -/
def make_stride_aligned4 (stride : Nat) : Nat :=
  if stride % 4 = 0 then stride
  else if (stride + 1) % 4 = 0 then stride + 1
  else if (stride + 2) % 4 = 0 then stride + 2
  else stride + 3

/-- Outcome of `BMP::read`: a completed state, a typed `io::Result`
error, or a `panic!` (process abort). -/
inductive ReadOutcome where
  | ok (file_header : BMPFileHeader) (info_header : BMPInfoHeader)
      (color_header : BMPColorHeader) (data : List Nat)
  | ioError (msg : String)
  | panicked (msg : String)
deriving DecidableEq

/-- The padded-row reading loop of my_bmp_loader.rs lines 178-183: for
each row read `row_stride` data bytes then skip `pad` padding bytes. -/
def bmp_read_rows (bytes : List Nat) (pos row_stride pad rows : Nat)
    (acc : List Nat) : Option (List Nat) :=
  match rows with
  | 0 => some acc
  | r + 1 =>
    match read_exact bytes pos row_stride with
    | none => none
    | some row =>
      match read_exact bytes (pos + row_stride) pad with
      | none => none
      | some _ =>
        bmp_read_rows bytes (pos + row_stride + pad) row_stride pad r
          (acc ++ row)

/-- The tail of `BMP::read` after the headers (my_bmp_loader.rs lines
141-200): seek to the pixel offset, rewrite the bookkeeping header
fields, reject negative heights, then read the pixel data — in one block
when the width is a multiple of 4, else row by row skipping padding.
(`vec![0; new_stride - row_stride]` would panic in Rust were the
difference negative; that cannot happen for the 24/32-bit images this
loader accepts, and the `Nat` subtraction truncates.) -/
def bmp_read_after (bytes : List Nat) (file_header : BMPFileHeader)
    (info_header : BMPInfoHeader) (color_header : BMPColorHeader) :
    ReadOutcome :=
  let pos := file_header.offset
  let info_header :=
    if info_header.bit_count = 32 then { info_header with size := 60 }
    else { info_header with size := 40 }
  let file_header :=
    if info_header.bit_count = 32 then { file_header with offset := 74 }
    else { file_header with offset := 54 }
  let file_header := { file_header with file_size := file_header.offset }
  if info_header.height < 0 then
    .ioError "The program can only treat BMP images with the origin in the bottom left corner"
  else
    let row_stride :=
      as_usize ((info_header.width * (info_header.bit_count : Int)).tdiv 8)
    let new_stride := make_stride_aligned4
      (as_u32 info_header.width * (info_header.bit_count / 8) % 4294967296)
    let pad := new_stride - row_stride
    let data_size := as_usize info_header.width *
      as_usize info_header.height * info_header.bit_count / 8
    if info_header.width.tmod 4 = 0 then
      match read_exact bytes pos data_size with
      | none => .ioError "failed to fill whole buffer"
      | some data => .ok file_header info_header color_header data
    else
      match bmp_read_rows bytes pos row_stride pad
          (as_usize info_header.height) [] with
      | none => .ioError "failed to fill whole buffer"
      | some data =>
        let file_header := { file_header with file_size :=
          (file_header.file_size + data.length +
            as_u32 info_header.height * pad) % 4294967296 }
        .ok file_header info_header color_header data

/-- `BMP::read` from my_bmp_loader.rs lines 92-201 over the file bytes:
header reads and validation, then the data phase.  When no color header
is read, the `Default` (expected) color header from `BMP::new`'s
initialization stays in place. -/
def bmp_read (bytes : List Nat) : ReadOutcome :=
  match read_exact bytes 0 14 with
  | none => .ioError "failed to fill whole buffer"
  | some fh_bytes =>
    let file_header := parse_file_header fh_bytes
    if file_header.file_type ≠ 0x4D42 then
      .ioError "Unrecognized file format"
    else
      match read_exact bytes 14 40 with
      | none => .ioError "failed to fill whole buffer"
      | some ih_bytes =>
        let info_header := parse_info_header ih_bytes
        if info_header.bit_count = 32 then
          if info_header.size ≥ 60 then
            match read_exact bytes 54 20 with
            | none => .ioError "failed to fill whole buffer"
            | some ch_bytes =>
              let color_header := parse_color_header ch_bytes
              match check_color_header color_header with
              | some msg => .panicked msg
              | none => bmp_read_after bytes file_header info_header
                  color_header
          else
            .ioError "Unrecognized file format"
        else
          bmp_read_after bytes file_header info_header
            BMPColorHeader.default_value

/-- `Pixel` from image.rs lines 43-47. -/
structure Pixel where
  r : Nat
  g : Nat
  b : Nat
deriving DecidableEq

/-- `Image` from image.rs lines 205-213, restricted to the fields the
published pixel accessor reads (`width`, `height`, `data`); the cached
headers, palette and padding fields do not enter any claim. -/
structure Image where
  width : Nat
  height : Nat
  data : List Pixel
deriving DecidableEq

/-- `Image::get_pixel` from image.rs lines 276-278 (u32 arithmetic; the
subtraction stays in range whenever `y < height`, the only case the
renderer uses and the theorems consider; the source would panic on an
out-of-range offset where `getD` defaults). -/
def Image.get_pixel (img : Image) (x y : Nat) : Pixel :=
  img.data.getD ((img.height - y - 1) * img.width + x) ⟨0, 0, 0⟩

/-- `load_texture_bmp` unwrapping (my_bmp_loader.rs lines 253-255): the
open/decode result is consumed with `unwrap_or_else(panic!)`. -/
inductive TexOutcome where
  | ok (img : Image)
  | panicked (msg : String)
deriving DecidableEq

/-- The `bmp_loader::open(path).unwrap_or_else(|e| panic!(...))` of
`load_texture_bmp`, over the open result. -/
def load_texture_bmp_unwrap (open_result : Except String Image) :
    TexOutcome :=
  match open_result with
  | .error e => .panicked ("Failed to open: " ++ e)
  | .ok img => .ok img

/-- The disk row stride of a 24-bit image: 3 bytes per pixel, padded to a
4-byte boundary. -/
def bmp_row_stride24 (w : Nat) : Nat := make_stride_aligned4 (3 * w)

/-- Modelled from the spec: `loaders/bmp/decoder.rs` is absent from
`src/` (only its `Image` consumer is present).  Per §4.5, a decoded row
is `width` BGR byte triples — on-disk channel order blue, green, red —
published as `Pixel {r, g, b}`. -/
def decode_row (w : Nat) (bytes : List Nat) : List Pixel :=
  match w, bytes with
  | 0, _ => []
  | w + 1, b :: g :: r :: rest => ⟨r, g, b⟩ :: decode_row w rest
  | _ + 1, _ => []

/-- Modelled from the spec: the decoder reads the `height` pixel rows in
their on-disk order (bottom-to-top), skipping each row's padding to the
4-byte boundary, and stores them in that order into `Image.data`. -/
def decode_image24 (w h : Nat) (bytes : List Nat) : Option Image :=
  if h * bmp_row_stride24 w ≤ bytes.length then
    let rows := (List.range h).map fun r =>
      decode_row w (bytes.drop (r * bmp_row_stride24 w))
    some { width := w, height := h, data := rows.flatten }
  else
    none

/-! ## Concrete fixtures -/

/-- The self-intersecting quadrilateral of the spec and of the
triangulate.rs regression test: a bowtie traversed 0-1-2-3. -/
def quad_face : List FaceVertex :=
  [(0, none, none), (1, none, none), (2, none, none), (3, none, none)]

/-- Corner positions `(0,0,0), (2,2,0), (0,2,0), (2,0,0)`. -/
def quad_positions : List Vec3q := [(0, 0, 0), (2, 2, 0), (0, 2, 0), (2, 0, 0)]

/-- A 4-corner face whose second corner repeats the first position: the
duplicate-corner cleanup reduces it to a triangle, so the robust
triangulator emits one triangle where the naive fan emits two. -/
def dup_face : List FaceVertex :=
  [(0, none, none), (0, none, none), (1, none, none), (2, none, none)]

/-- Corner positions `(0,0,0), (1,0,0), (0,1,0)` for `dup_face`. -/
def tri_positions : List Vec3q := [(0, 0, 0), (1, 0, 0), (0, 1, 0)]

/-- The pair condition scanned by `has_self_intersections`: two edges that
share no endpoint (the wrap adjacency included) and that
`segments_intersect` reports as properly crossing or near-collinearly
overlapping. -/
def crossing_pair (points : List Vec2q) : Prop :=
  ∃ i j, i < points.length ∧ i + 1 ≤ j ∧ j < points.length ∧
    ¬ (i = j ∨ (i + 1) % points.length = j ∨ (j + 1) % points.length = i) ∧
    ¬ (i = 0 ∧ (j + 1) % points.length = 0) ∧
    segments_intersect (points.getD i (0, 0))
      (points.getD ((i + 1) % points.length) (0, 0))
      (points.getD j (0, 0))
      (points.getD ((j + 1) % points.length) (0, 0)) = true

/-- Directives `v 0 0 0; v 1 0 0; v 0 1 0; f 1 2 3; f 1 2 3`: two faces
whose corners carry pairwise identical `(position, texcoord, normal)`
keys, all in the default (no-material) bucket. -/
def C1_directives : List ObjDirective :=
  [.v [0, 0, 0], .v [1, 0, 0], .v [0, 1, 0],
    .f ["1", "2", "3"], .f ["1", "2", "3"]]

/-- An MTL oracle for OBJ files that list no mtllib. -/
def no_mtl : String → Except String (List ObjMaterialData) :=
  fun _ => .error "no such file"

/-- The positions referenced by `C1_directives`. -/
def C1_P : List Vec3q := [(0, 0, 0), (1, 0, 0), (0, 1, 0)]

/-- The face bucket accumulated by `C1_directives`. -/
def C1_faces : List (List FaceVertex) :=
  [[(0, none, none), (1, none, none), (2, none, none)],
    [(0, none, none), (1, none, none), (2, none, none)]]

/-- The mesh `load` assembles for `C1_faces`: six fresh vertices. -/
def C1_mesh : ObjMeshData :=
  { positions := [0, 0, 0, 1, 0, 0, 0, 1, 0, 0, 0, 0, 1, 0, 0, 0, 1, 0],
    normals := [0, 0, 0, 0, 0, 0, 0, 0, 0, 0, 0, 0, 0, 0, 0, 0, 0, 0],
    texcoords := [],
    indices := [0, 1, 2, 3, 4, 5],
    material_id := none }

/-- Two MTL tables as loaded from `mtllib a.mtl b.mtl`, with the name `M`
defined in both. -/
def C10_tables : List (List ObjMaterialData) :=
  [[{ name := "M" }], [{ name := "M" }, { name := "X" }]]

/-- The file oracle backing `C10_tables`. -/
def C10_oracle : String → Except String (List ObjMaterialData) :=
  fun f =>
    if f = "a.mtl" then .ok [{ name := "M" }]
    else if f = "b.mtl" then .ok [{ name := "M" }, { name := "X" }]
    else .error "no such file"

/-- A 74-byte 32-bit BMP prefix whose color-mask header does not match
the expected sRGB BGRA signature (the red mask is zero): valid `BM`
signature, a V5-sized (124) info header with `bit_count = 32`, then the
mismatched color header. -/
def C5_bytes : List Nat :=
  [0x42, 0x4D, 0, 0, 0, 0, 0, 0, 0, 0, 74, 0, 0, 0] ++
  [124, 0, 0, 0, 1, 0, 0, 0, 1, 0, 0, 0, 1, 0, 32, 0, 3, 0, 0, 0,
    0, 0, 0, 0, 0, 0, 0, 0, 0, 0, 0, 0, 0, 0, 0, 0, 0, 0, 0, 0] ++
  [0, 0, 0, 0, 0, 255, 0, 0, 255, 0, 0, 0, 0, 0, 0, 255,
    0x42, 0x47, 0x52, 0x73]

/-! ## Theorems -/

/-- The boolean pair scan agrees with the `crossing_pair` predicate. -/
theorem has_self_intersections_iff (points : List Vec2q) :
    has_self_intersections points = true ↔ crossing_pair points := by
  simp only [has_self_intersections, crossing_pair, List.any_eq_true,
    List.mem_range, List.mem_range'_1]
  constructor
  · rintro ⟨i, hi, j, ⟨hj1, hj2⟩, hcond⟩
    refine ⟨i, j, hi, hj1, by omega, ?_⟩
    split at hcond
    · simp at hcond
    · split at hcond
      · simp at hcond
      · exact ⟨by assumption, by assumption, hcond⟩
  · rintro ⟨i, j, hi, hij, hj, hnadj, hnwrap, hseg⟩
    refine ⟨i, hi, j, ⟨hij, by omega⟩, ?_⟩
    rw [if_neg hnadj, if_neg hnwrap]
    exact hseg

/-- A non-`FallbackFan` outcome certifies that the self-intersection scan
came back clean. -/
theorem robust_has_no_self_intersections (face : List FaceVertex)
    (positions : List Vec3q)
    (h : triangulate_face face positions ≠ .FallbackFan) :
    has_self_intersections (triangulate_projected face positions) = false := by
  unfold triangulate_face at h
  split at h
  · exact absurd rfl h
  · split at h
    · exact absurd rfl h
    · split at h
      · exact absurd rfl h
      · split at h
        · exact absurd rfl h
        · split at h
          · exact absurd rfl h
          · simp at *
            assumption

/-- Claim C4: a positive literal `k` with `1 ≤ k ≤ n` resolves to the
0-based entry `k - 1`; a negative literal `k` with `-n ≤ k ≤ -1` resolves
to `n + k`; parsing errors exactly when the token is not a signed decimal
integer, is the literal `0`, or resolves outside `[0, n)`; in particular
every reference against an element count of `0` is an error. -/
theorem C4_parse_obj_index (raw : String) (n : Nat) (label : String) :
    (∀ k : Int, parse_isize raw = some k → 1 ≤ k → k ≤ (n : Int) →
      parse_obj_index raw n label = .ok (k - 1).toNat) ∧
    (∀ k : Int, parse_isize raw = some k → -(n : Int) ≤ k → k ≤ -1 →
      parse_obj_index raw n label = .ok ((n : Int) + k).toNat) ∧
    (isErr (parse_obj_index raw n label) = true ↔
      parse_isize raw = none ∨
      ∃ k, parse_isize raw = some k ∧
        (k = 0 ∨ resolve_index k n < 0 ∨ (n : Int) ≤ resolve_index k n)) ∧
    (n = 0 → isErr (parse_obj_index raw n label) = true) := by
  refine ⟨?_, ?_, ?_, ?_⟩
  · intro k hk h1 h2
    have hres : resolve_index k n = k - 1 := by
      rw [resolve_index, if_pos (by omega)]
    simp only [parse_obj_index, hk]
    rw [if_neg (by omega : ¬ k = 0), if_neg (by omega : ¬ n = 0)]
    simp only [hres]
    rw [if_neg (by omega)]
  · intro k hk h1 h2
    have hres : resolve_index k n = (n : Int) + k := by
      rw [resolve_index, if_neg (by omega)]
    have hn : ¬ n = 0 := by omega
    simp only [parse_obj_index, hk]
    rw [if_neg (by omega : ¬ k = 0), if_neg hn]
    simp only [hres]
    rw [if_neg (by omega)]
  · cases hp : parse_isize raw with
    | none => simp [parse_obj_index, hp, isErr]
    | some k =>
      simp only [parse_obj_index, hp]
      constructor
      · intro herr
        refine Or.inr ⟨k, rfl, ?_⟩
        by_cases hk0 : k = 0
        · exact Or.inl hk0
        · rw [if_neg hk0] at herr
          by_cases hn0 : n = 0
          · subst hn0
            rw [resolve_index]
            split
            · omega
            · omega
          · rw [if_neg hn0] at herr
            by_cases hout : resolve_index k n < 0 ∨ (n : Int) ≤ resolve_index k n
            · exact Or.inr hout
            · rw [if_neg hout] at herr
              simp [isErr] at herr
      · rintro (h | ⟨k', hk', hcase⟩)
        · simp at h
        · rw [Option.some_inj] at hk'
          subst hk'
          by_cases hk0 : k = 0
          · simp [if_pos hk0, isErr]
          · rw [if_neg hk0]
            by_cases hn0 : n = 0
            · simp [if_pos hn0, isErr]
            · rw [if_neg hn0]
              have hout : resolve_index k n < 0 ∨ (n : Int) ≤ resolve_index k n := by
                rcases hcase with h | h
                · exact absurd h hk0
                · exact h
              rw [if_pos hout]
              simp [isErr]
  · intro hn
    subst hn
    cases hp : parse_isize raw with
    | none => simp [parse_obj_index, hp, isErr]
    | some k =>
      simp only [parse_obj_index, hp]
      by_cases hk0 : k = 0
      · simp [if_pos hk0, isErr]
      · rw [if_neg hk0]
        simp [isErr]

/-- Witness for C4 at concrete inputs: token `"2"` against count 3 resolves
to entry 1, token `"-1"` against count 3 resolves to entry 2, and any token
against count 0 errors. -/
theorem C4_parse_obj_index_witness :
    parse_obj_index "2" 3 "position" = .ok 1 ∧
    parse_obj_index "-1" 3 "position" = .ok 2 ∧
    isErr (parse_obj_index "1" 0 "position") = true := by
  refine ⟨?_, ?_, ?_⟩
  · have h := (C4_parse_obj_index "2" 3 "position").1 2 (by rfl)
      (by decide) (by decide)
    simpa using h
  · have h := (C4_parse_obj_index "-1" 3 "position").2.1 (-1) (by rfl)
      (by decide) (by decide)
    simpa using h
  · exact (C4_parse_obj_index "1" 0 "position").2.2.2 rfl

/-- Claim C7: the quadrilateral with corners `(0,0,0), (2,2,0), (0,2,0),
(2,0,0)` in that order triangulates to `FallbackFan`; and every face whose
projected polygon contains a non-adjacent edge pair that properly crosses
or overlaps near-collinearly (the `crossing_pair` condition) yields
`FallbackFan`, never `Robust`. -/
theorem C7_self_intersection_fallback :
    triangulate_face quad_face quad_positions = .FallbackFan ∧
    ∀ (face : List FaceVertex) (positions : List Vec3q),
      crossing_pair (triangulate_projected face positions) →
      triangulate_face face positions = .FallbackFan := by
  constructor
  · norm_num [triangulate_face, quad_face, quad_positions,
      cleaned_original_indices, cleaned_pass1, corner_pos, nearly_equal3,
      EPSILON, cleaned_positions_of, normal_len2_of, newell_normal,
      List.range_succ]
  · intro face positions hcross
    by_contra hne
    have hclean := robust_has_no_self_intersections face positions hne
    rw [← has_self_intersections_iff] at hcross
    rw [hclean] at hcross
    exact Bool.false_ne_true hcross

/-- Witness for C7: the bowtie quadrilateral's projected polygon contains
the crossing pair of edges (0,1) and (2,3), and the general statement then
forces `FallbackFan` on it. -/
theorem C7_self_intersection_fallback_witness :
    triangulate_face quad_face quad_positions = .FallbackFan := by
  refine C7_self_intersection_fallback.2 quad_face quad_positions
    ⟨0, 2, ?_, ?_, ?_, ?_, ?_, ?_⟩ <;>
    norm_num [triangulate_projected, quad_face, quad_positions,
      cleaned_original_indices, cleaned_pass1, corner_pos, nearly_equal3,
      EPSILON, cleaned_positions_of, newell_normal, List.range_succ,
      project_to_2d, segments_intersect, orient, on_segment]

/-- Pushing a face onto a bucket appends it to that bucket's face list. -/
theorem bucket_faces_push_self (buckets : MaterialFaces)
    (key : Option String) (face : List FaceVertex) :
    bucket_faces (push_face buckets key face) key =
      bucket_faces buckets key ++ [face] := by
  induction buckets with
  | nil => simp [push_face, bucket_faces]
  | cons hd rest ih =>
    obtain ⟨k, fs⟩ := hd
    by_cases hk : k = key
    · simp [push_face, bucket_faces, hk]
    · simp [push_face, bucket_faces, hk, ih]

/-- Pushing a face onto a bucket leaves every other bucket unchanged. -/
theorem bucket_faces_push_other (buckets : MaterialFaces)
    (key key' : Option String) (face : List FaceVertex)
    (h : key' ≠ key) :
    bucket_faces (push_face buckets key face) key' =
      bucket_faces buckets key' := by
  induction buckets with
  | nil =>
    have hne : key ≠ key' := Ne.symm h
    simp [push_face, bucket_faces, hne]
  | cons hd rest ih =>
    obtain ⟨k, fs⟩ := hd
    simp only [push_face]
    by_cases hk : k = key
    · rw [if_pos hk]
      have hk' : ¬ k = key' := fun e => h (e.symm.trans hk)
      simp only [bucket_faces]
      rw [if_neg hk', if_neg hk']
    · rw [if_neg hk]
      simp only [bucket_faces]
      by_cases hk' : k = key'
      · rw [if_pos hk', if_pos hk']
      · rw [if_neg hk', if_neg hk', ih]

/-- Pushing a list of faces in order appends them all to the bucket. -/
theorem bucket_faces_push_all (tris : List (List FaceVertex))
    (buckets : MaterialFaces) (key : Option String) :
    bucket_faces (tris.foldl (fun b tri => push_face b key tri) buckets)
        key = bucket_faces buckets key ++ tris := by
  induction tris generalizing buckets with
  | nil => simp
  | cons hd rest ih => simp [ih, bucket_faces_push_self]

/-- Pushing a list of faces never touches the other buckets. -/
theorem bucket_faces_push_all_other (tris : List (List FaceVertex))
    (buckets : MaterialFaces) (key key' : Option String) (h : key' ≠ key) :
    bucket_faces (tris.foldl (fun b tri => push_face b key tri) buckets)
        key' = bucket_faces buckets key' := by
  induction tris generalizing buckets with
  | nil => rfl
  | cons hd rest ih => simp [ih, bucket_faces_push_other _ _ _ _ h]

/-- Counterexample to claim C2: on `dup_face` (4 corners, one consecutive
duplicate) `load` appends the two naive fan triangles, while
`triangulate_face` returns `Robust [(0, 2, 3)]`, whose single mapped
triangle differs from the fan. -/
theorem C2_counterexample :
    triangulate_face dup_face tri_positions = .Robust [(0, 2, 3)] ∧
    fan_triangles dup_face =
      [[(0, none, none), (0, none, none), (1, none, none)],
       [(0, none, none), (1, none, none), (2, none, none)]] ∧
    [(0, 2, 3)].map (fun t : Nat × Nat × Nat =>
      [dup_face.getD t.1 (0, none, none), dup_face.getD t.2.1 (0, none, none),
        dup_face.getD t.2.2 (0, none, none)]) =
      [[(0, none, none), (1, none, none), (2, none, none)]] ∧
    fan_triangles dup_face ≠
      [[(0, none, none), (1, none, none), (2, none, none)]] := by
  refine ⟨?_, by decide, by decide, by decide⟩
  · have hclean : cleaned_original_indices tri_positions dup_face =
        [0, 2, 3] := by
      norm_num [dup_face, tri_positions, cleaned_original_indices,
        cleaned_pass1, corner_pos, nearly_equal3, EPSILON, List.range_succ]
    have hproj : triangulate_projected dup_face tri_positions =
        [(0, 0), (1, 0), (0, 1)] := by
      rw [triangulate_projected, cleaned_positions_of, hclean]
      norm_num [corner_pos, dup_face, tri_positions, newell_normal,
        List.range_succ, project_to_2d]
    have hlen2 : normal_len2_of dup_face tri_positions = 1 := by
      rw [normal_len2_of, cleaned_positions_of, hclean]
      norm_num [corner_pos, dup_face, tri_positions, newell_normal,
        List.range_succ]
    have harea : polygon_signed_area [((0 : ℚ), (0 : ℚ)), (1, 0), (0, 1)] =
        1 / 2 := by
      norm_num [polygon_signed_area, List.range_succ]
    have hcross : has_self_intersections
        [((0 : ℚ), (0 : ℚ)), (1, 0), (0, 1)] = false := by
      norm_num [has_self_intersections, List.range_succ, List.range']
    have hear : ear_clip [((0 : ℚ), (0 : ℚ)), (1, 0), (0, 1)] true =
        some [(0, 1, 2)] := by
      rw [ear_clip, ear_clip_loop]
      norm_num
    have habs : ¬ |(1 : ℚ) / 2| ≤ EPSILON := by
      rw [abs_of_pos (by norm_num : (0 : ℚ) < 1 / 2)]
      norm_num [EPSILON]
    unfold triangulate_face
    rw [if_neg (by norm_num [dup_face])]
    rw [hclean, hproj, hlen2, harea]
    rw [if_neg (by norm_num), if_neg (by norm_num [EPSILON]), if_neg habs]
    rw [hcross]
    rw [if_neg (by simp)]
    rw [show decide ((1 : ℚ) / 2 > 0) = true by norm_num]
    rw [hear]
    decide

/-- Claim C2 (amended): with `triangulate=true`, a face directive of more
than 3 corners makes `load` append exactly the naive fan triangles
`[face[0], face[i], face[i+1]]` to the current material bucket, leaving
all other buckets and the rest of the state unchanged; `triangulate_face`
is not consulted. -/
theorem C2_load_appends_fan (st : LoadState) (tokens : List String)
    (face : List FaceVertex)
    (hlen : ¬ tokens.length < 3)
    (hparse : (tokens.takeWhile (fun t => !starts_with_hash t)).mapM
      (fun t => parse_face_vertex t st.positions.length
        st.texcoords.length st.normals.length) = .ok face)
    (hbig : face.length > 3) :
    ∃ st', load_step true st (.f tokens) = .ok st' ∧
      bucket_faces st'.material_faces st.current_material =
        bucket_faces st.material_faces st.current_material ++
          fan_triangles face ∧
      (∀ key, key ≠ st.current_material →
        bucket_faces st'.material_faces key =
          bucket_faces st.material_faces key) ∧
      st'.positions = st.positions ∧ st'.normals = st.normals ∧
      st'.texcoords = st.texcoords ∧
      st'.current_material = st.current_material := by
  have hstep : load_step true st (.f tokens) = process_face true face st := by
    simp only [load_step, if_neg hlen, hparse]
    rfl
  have hproc : process_face true face st = .ok { st with material_faces := (fan_triangles face).foldl (fun b tri => push_face b st.current_material tri) st.material_faces } := by
    unfold process_face
    rw [if_pos ⟨rfl, hbig⟩]
  refine ⟨_, hstep.trans hproc, ?_, ?_, rfl, rfl, rfl, rfl⟩
  · exact bucket_faces_push_all _ _ _
  · intro key hkey
    exact bucket_faces_push_all_other _ _ _ _ hkey

/-- Witness for C2 (amended) at a concrete quad face directive: tokens
`1 2 3 4` against four positions fan into two triangles in the default
bucket. -/
theorem C2_load_appends_fan_witness :
    ∃ st', load_step true
        { positions := [(0, 0, 0), (1, 0, 0), (1, 1, 0), (0, 1, 0)] }
        (.f ["1", "2", "3", "4"]) = .ok st' ∧
      bucket_faces st'.material_faces none =
        bucket_faces (LoadState.material_faces
          { positions := [(0, 0, 0), (1, 0, 0), (1, 1, 0), (0, 1, 0)] })
          none ++ fan_triangles
            [(0, none, none), (1, none, none), (2, none, none),
              (3, none, none)] ∧
      (∀ key, key ≠ none →
        bucket_faces st'.material_faces key =
          bucket_faces (LoadState.material_faces
            { positions := [(0, 0, 0), (1, 0, 0), (1, 1, 0), (0, 1, 0)] })
            key) ∧
      st'.positions = [(0, 0, 0), (1, 0, 0), (1, 1, 0), (0, 1, 0)] ∧
      st'.normals = [] ∧ st'.texcoords = [] ∧
      st'.current_material = none :=
  C2_load_appends_fan
    { positions := [(0, 0, 0), (1, 0, 0), (1, 1, 0), (0, 1, 0)] }
    ["1", "2", "3", "4"]
    [(0, none, none), (1, none, none), (2, none, none), (3, none, none)]
    (by decide) (by rfl) (by decide)

/-- One corner append of the assembly loop, in closed form. -/
theorem add_corner_eq (P N : List Vec3q) (T : List Vec2q)
    (mesh : ObjMeshData) (ni : Nat) (vtc : List (Option Vec2q))
    (c : FaceVertex) :
    add_corner P N T (mesh, ni, vtc) c =
      ({ positions := mesh.positions ++ flat3 (P.getD c.1 (0, 0, 0)),
         normals := mesh.normals ++ flat3 (corner_normal N c),
         texcoords := mesh.texcoords,
         indices := mesh.indices ++ [ni],
         material_id := mesh.material_id }, ni + 1,
        vtc ++ [corner_tex T c]) :=
  rfl

/-- Folding a corner list into the accumulator, in closed form: positions
and normals are flattened corner data, indices continue counting up from
`ni`, and the texcoord options are recorded per corner. -/
theorem add_corner_foldl (P N : List Vec3q) (T : List Vec2q)
    (corners : List FaceVertex) (mesh : ObjMeshData) (ni : Nat)
    (vtc : List (Option Vec2q)) :
    corners.foldl (add_corner P N T) (mesh, ni, vtc) =
      ({ positions := mesh.positions ++
           corners.flatMap (fun c => flat3 (P.getD c.1 (0, 0, 0))),
         normals := mesh.normals ++
           corners.flatMap (fun c => flat3 (corner_normal N c)),
         texcoords := mesh.texcoords,
         indices := mesh.indices ++ List.range' ni corners.length,
         material_id := mesh.material_id },
        ni + corners.length, vtc ++ corners.map (corner_tex T)) := by
  induction corners generalizing mesh ni vtc with
  | nil => simp [List.range']
  | cons c rest ih =>
    rw [List.foldl_cons, add_corner_eq, ih]
    simp [List.range', List.append_assoc]
    omega

/-- A successful face loop forces every face to be a triangle and equals
the flat corner fold. -/
theorem assemble_faces_ok (P N : List Vec3q) (T : List Vec2q)
    (faces : List (List FaceVertex))
    (acc acc' : ObjMeshData × Nat × List (Option Vec2q))
    (h : assemble_faces P N T faces acc = .ok acc') :
    (∀ f ∈ faces, f.length = 3) ∧
      acc' = faces.flatten.foldl (add_corner P N T) acc := by
  induction faces generalizing acc with
  | nil =>
    rw [assemble_faces] at h
    injection h with h
    simp [h]
  | cons f rest ih =>
    rw [assemble_faces] at h
    split at h
    · exact absurd h (by simp)
    · obtain ⟨hall, hacc⟩ := ih _ h
      refine ⟨?_, ?_⟩
      · intro g hg
        rcases hg with _ | hg
        · omega
        · exact hall g (by assumption)
      · simpa [List.foldl_append] using hacc

/-- The texcoord flattening loop of parse_obj.rs lines 198-203, in closed
form. -/
theorem texcoord_flatten (uvs : List (Option Vec2q)) (acc : List ℚ) :
    uvs.foldl (fun l uv => l ++ (match uv with
      | some (u, v) => [u, v]
      | none => [])) acc =
      acc ++ uvs.flatMap (fun uv => match uv with
        | some (u, v) => [u, v]
        | none => []) := by
  induction uvs generalizing acc with
  | nil => simp
  | cons uv rest ih => simp [ih, List.append_assoc]

/-- In the `Except` monad, binding a success applies the continuation. -/
theorem except_bind_ok {ε α β : Type} (a : α) (f : α → Except ε β) :
    (Except.ok a >>= f) = f a := rfl

/-- In the `Except` monad, binding an error short-circuits. -/
theorem except_bind_err {ε α β : Type} (e : ε) (f : α → Except ε β) :
    ((Except.error e : Except ε α) >>= f) = Except.error e := rfl

/-- Full characterization of a successful bucket assembly. -/
theorem assemble_bucket_ok (P N : List Vec3q) (T : List Vec2q)
    (mid : Option Nat) (faces : List (List FaceVertex)) (mesh : ObjMeshData)
    (h : assemble_bucket P N T mid faces = .ok mesh) :
    (∀ f ∈ faces, f.length = 3) ∧
    mesh.positions =
      faces.flatten.flatMap (fun c => flat3 (P.getD c.1 (0, 0, 0))) ∧
    mesh.normals = faces.flatten.flatMap (fun c => flat3 (corner_normal N c)) ∧
    mesh.indices = List.range faces.flatten.length ∧
    mesh.material_id = mid ∧
    ((∀ c ∈ faces.flatten, (corner_tex T c).isSome = true) →
      mesh.texcoords = faces.flatten.flatMap
        (fun c => flat2 ((corner_tex T c).getD (0, 0)))) ∧
    ((¬ ∀ c ∈ faces.flatten, (corner_tex T c).isSome = true) →
      mesh.texcoords = []) := by
  rw [assemble_bucket] at h
  cases hres : assemble_faces P N T faces ({ material_id := mid }, 0, []) with
  | error e =>
    rw [hres, except_bind_err] at h
    exact Except.noConfusion h
  | ok acc =>
    rw [hres, except_bind_ok] at h
    obtain ⟨hall, hacc⟩ := assemble_faces_ok _ _ _ _ _ _ hres
    rw [add_corner_foldl] at hacc
    subst hacc
    simp only [List.nil_append] at h
    split at h
    case isTrue hcond =>
      rw [texcoord_flatten] at h
      injection h with h
      subst h
      have hsome : ∀ c ∈ faces.flatten, (corner_tex T c).isSome = true := by
        simp only [List.all_eq_true, List.mem_map] at hcond
        exact fun c hc => hcond _ ⟨c, hc, rfl⟩
      refine ⟨hall, rfl, rfl, ?_, rfl, ?_, fun hcon => absurd hsome hcon⟩
      · simp [List.range_eq_range']
      · intro _
        simp only [List.nil_append]
        have hs := hsome
        clear hcond hsome
        revert hs
        generalize faces.flatten = corners
        induction corners with
        | nil => intro _; rfl
        | cons c rest ih =>
          intro hs
          simp only [List.map_cons, List.flatMap_cons]
          rw [ih (fun x hx => hs x (List.mem_cons_of_mem _ hx))]
          congr 1
          have hc := hs c (List.mem_cons_self _ _)
          cases htex : corner_tex T c with
          | none => rw [htex] at hc; exact absurd hc (by simp)
          | some uv => cases uv; rfl
    case isFalse hcond =>
      injection h with h
      subst h
      have hsome : ¬ ∀ c ∈ faces.flatten, (corner_tex T c).isSome = true := by
        intro hcon
        apply hcond
        simp only [List.all_eq_true, List.mem_map]
        rintro uv ⟨c, hc, rfl⟩
        exact hcon c hc
      refine ⟨hall, rfl, rfl, ?_, rfl, fun hcon => absurd hcon hsome,
        fun _ => rfl⟩
      simp [List.range_eq_range']

/-- Flattened corner positions occupy three floats per corner. -/
theorem flat3_flatMap_length {α : Type} (l : List α) (g : α → Vec3q) :
    (l.flatMap fun c => flat3 (g c)).length = 3 * l.length := by
  induction l with
  | nil => simp
  | cons c rest ih =>
    rw [List.flatMap_cons, List.length_append, ih,
      show (flat3 (g c)).length = 3 from rfl, List.length_cons]
    omega

/-- Flattened corner texcoords occupy two floats per corner. -/
theorem flat2_flatMap_length {α : Type} (l : List α) (g : α → Vec2q) :
    (l.flatMap fun c => flat2 (g c)).length = 2 * l.length := by
  induction l with
  | nil => simp
  | cons c rest ih =>
    rw [List.flatMap_cons, List.length_append, ih,
      show (flat2 (g c)).length = 2 from rfl, List.length_cons]
    omega

/-- Counterexample to claim C1: the OBJ input `v 0 0 0; v 1 0 0; v 0 1 0;
f 1 2 3; f 1 2 3` puts six corners in one bucket, pairwise sharing
identical `(position, texcoord, normal)` keys three by three, yet `load`
assigns them the six distinct indices 0..5 (and duplicates the position
data) instead of collapsing equal keys to one vertex. -/
theorem C1_counterexample :
    (load true C1_directives no_mtl).map
      (fun scene => scene.objects.map fun o => o.mesh.indices) =
      .ok [[0, 1, 2, 3, 4, 5]] ∧
    (load true C1_directives no_mtl).map
      (fun scene => scene.objects.map fun o => o.mesh.positions) =
      .ok [[0, 0, 0, 1, 0, 0, 0, 1, 0, 0, 0, 0, 1, 0, 0, 0, 1, 0]] := by
  constructor <;> rfl

/-- Claim C1 (amended): `load` deduplicates nothing.  The j-th corner of a
bucket, in emission order, is assigned the compact index j, so two
distinct corners receive distinct indices even when their
`(position_index, texcoord_index, normal_index)` keys are identical —
within one bucket just as across buckets. -/
theorem C1_no_dedup (P N : List Vec3q) (T : List Vec2q) (mid : Option Nat)
    (faces : List (List FaceVertex)) (mesh : ObjMeshData)
    (h : assemble_bucket P N T mid faces = .ok mesh) :
    mesh.indices = List.range faces.flatten.length ∧
    ∀ j k, j < faces.flatten.length → k < faces.flatten.length → j ≠ k →
      faces.flatten.getD j (0, none, none) =
        faces.flatten.getD k (0, none, none) →
      mesh.indices.getD j 0 ≠ mesh.indices.getD k 0 := by
  obtain ⟨-, -, -, hidx, -⟩ := assemble_bucket_ok P N T mid faces mesh h
  refine ⟨hidx, ?_⟩
  intro j k hj hk hjk _
  rw [hidx]
  rw [List.getD_eq_getElem?_getD, List.getD_eq_getElem?_getD]
  rw [List.getElem?_range hj, List.getElem?_range hk]
  simpa using hjk

/-- Witness for C1 (amended) on the bucket of `C1_directives`: the six
corners get indices `0..5`, and corners 0 and 3 — which carry the same key
`(0, none, none)` — get the distinct indices 0 and 3. -/
theorem C1_no_dedup_witness :
    C1_mesh.indices = List.range C1_faces.flatten.length ∧
    C1_mesh.indices.getD 0 0 ≠ C1_mesh.indices.getD 3 0 := by
  have h := C1_no_dedup C1_P [] [] none C1_faces C1_mesh (by rfl)
  exact ⟨h.1, h.2 0 3 (by decide) (by decide) (by decide) (by decide)⟩

/-- A successful object loop only appends meshes assembled from the
buckets it walked. -/
theorem build_objects_mem (P N : List Vec3q) (T : List Vec2q)
    (materials : List ObjMaterialData) (buckets : MaterialFaces)
    (objs objs' : List ObjObjectData)
    (h : build_objects P N T materials buckets objs = .ok objs') :
    ∀ o ∈ objs', o ∈ objs ∨
      ∃ bucket ∈ buckets, assemble_bucket P N T
        (bucket_material_id materials bucket.1) bucket.2 = .ok o.mesh := by
  induction buckets generalizing objs with
  | nil =>
    rw [build_objects] at h
    injection h with h
    subst h
    exact fun o ho => .inl ho
  | cons bucket rest ih =>
    rw [build_objects] at h
    split at h
    · exact Except.noConfusion h
    · rename_i mesh heq
      intro o ho
      rcases ih _ h o ho with hmem | ⟨b, hb, hass⟩
      · rcases List.mem_append.mp hmem with hmem | hmem
        · exact .inl hmem
        · simp only [List.mem_singleton] at hmem
          subst hmem
          exact .inr ⟨bucket, List.mem_cons_self _ _, heq⟩
      · exact .inr ⟨b, List.mem_cons_of_mem _ hb, hass⟩

/-- Appending one material record to the table shifts the name lookup:
the new record wins when its name matches, otherwise the old lookup
stands. -/
theorem material_map_lookup_append (materials : List ObjMaterialData)
    (m : ObjMaterialData) (name : String) :
    material_map_lookup (materials ++ [m]) name =
      if m.name = name then some materials.length
      else material_map_lookup materials name := by
  simp [material_map_lookup, List.enum_append, List.foldl_append,
    List.enumFrom]

/-- The collected name-to-id map resolves a name to the LAST index bearing
it, and to `none` when no record bears it. -/
theorem material_map_lookup_spec (materials : List ObjMaterialData)
    (name : String) :
    (∀ i, material_map_lookup materials name = some i →
      i < materials.length ∧
      (∃ mat, materials[i]? = some mat ∧ mat.name = name) ∧
      ∀ j mat', i < j → materials[j]? = some mat' → mat'.name ≠ name) ∧
    ((∀ mat ∈ materials, mat.name ≠ name) →
      material_map_lookup materials name = none) := by
  induction materials using List.reverseRecOn with
  | nil =>
    refine ⟨?_, ?_⟩
    · intro i hi
      simp [material_map_lookup, List.enum] at hi
    · intro _
      rfl
  | append_singleton l m ih =>
    rw [material_map_lookup_append]
    by_cases hm : m.name = name
    · rw [if_pos hm]
      refine ⟨?_, ?_⟩
      · intro i hi
        injection hi with hi
        subst hi
        refine ⟨by simp, ⟨m, ?_, hm⟩, ?_⟩
        · rw [List.getElem?_append_right (Nat.le_refl _)]
          simp
        · intro j mat' hj hsome
          have hlt := List.getElem?_eq_some_iff.mp hsome
          obtain ⟨hjlt, -⟩ := hlt
          simp only [List.length_append, List.length_singleton] at hjlt
          omega
      · intro hall
        exact absurd hm (hall m (by simp))
    · rw [if_neg hm]
      refine ⟨?_, ?_⟩
      · intro i hi
        obtain ⟨hlt, ⟨mat, hmat, hname⟩, hlast⟩ := ih.1 i hi
        refine ⟨by simp; omega, ⟨mat, ?_, hname⟩, ?_⟩
        · rw [List.getElem?_append_left hlt]
          exact hmat
        · intro j mat' hj hsome
          by_cases hjl : j < l.length
          · rw [List.getElem?_append_left hjl] at hsome
            exact hlast j mat' hj hsome
          · have hlt' := (List.getElem?_eq_some_iff.mp hsome).1
            simp only [List.length_append, List.length_singleton] at hlt'
            have hjeq : j = l.length := by omega
            subst hjeq
            rw [List.getElem?_append_right (Nat.le_refl _)] at hsome
            rw [Nat.sub_self] at hsome
            injection hsome with hsome
            subst hsome
            exact hm
      · intro hall
        exact ih.2 fun mat hmat => hall mat (by simp [hmat])

/-- A resolved material id always indexes the table. -/
theorem bucket_material_id_lt (materials : List ObjMaterialData)
    (mat_name : Option String) (id : Nat)
    (h : bucket_material_id materials mat_name = some id) :
    id < materials.length := by
  cases mat_name with
  | none => exact Option.noConfusion h
  | some name =>
    exact ((material_map_lookup_spec materials name).1 id h).1

/-- The `build_scene_model` entry checks accept a mesh whose shape obeys
the assembly invariants. -/
theorem mesh_checks_pass (materials : List ObjMaterialData)
    (mesh : ObjMeshData) (model_path : String)
    (h3 : mesh.positions.length % 3 = 0)
    (hn : mesh.normals.length = mesh.positions.length)
    (ht : mesh.texcoords = [] ∨
      mesh.texcoords.length = (mesh.positions.length / 3) * 2)
    (hm : ∀ id, mesh.material_id = some id → id < materials.length) :
    isErr (mesh_checks materials mesh model_path) = false := by
  rw [mesh_checks]
  rw [if_neg (by simp [h3])]
  rw [if_neg (by simp [hn])]
  rw [if_neg ?ht]
  case ht =>
    rintro ⟨hne, hlen⟩
    rcases ht with h | h
    · exact hne h
    · exact hlen h
  cases hmid : mesh.material_id with
  | none => rfl
  | some id =>
    have hlt := hm id hmid
    show isErr (match materials[id]? with
      | none => Except.error
          ("OBJ mesh references unknown material id while loading " ++
            model_path)
      | some mat => Except.ok (some mat)) = false
    rw [List.getElem?_eq_getElem hlt]
    rfl

/-- Claim C9: every mesh of a successful `load` has index buffer exactly
`0, 1, ..., N-1` with `N = positions.length / 3`, a normal buffer as long
as the position buffer, a texcoord buffer that is empty or holds `2 * N`
floats, and a material id (when present) that indexes the returned
materials table — so `build_scene_model`'s malformed-mesh and
unknown-material-id branches never fire on it and every shading index is
in bounds. -/
theorem C9_load_invariants (triangulate : Bool)
    (directives : List ObjDirective)
    (mtl_tables : String → Except String (List ObjMaterialData))
    (scene : ObjSceneData) (model_path : String)
    (h : load triangulate directives mtl_tables = .ok scene) :
    ∀ obj ∈ scene.objects,
      obj.mesh.indices = List.range (obj.mesh.positions.length / 3) ∧
      obj.mesh.normals.length = obj.mesh.positions.length ∧
      (obj.mesh.texcoords.length = 0 ∨
        obj.mesh.texcoords.length = 2 * (obj.mesh.positions.length / 3)) ∧
      (∀ id, obj.mesh.material_id = some id →
        id < scene.materials.length) ∧
      isErr (mesh_checks scene.materials obj.mesh model_path) = false ∧
      (∀ i ∈ obj.mesh.indices, i < obj.mesh.positions.length / 3) := by
  rw [load] at h
  cases hst : directives.foldlM
      (fun st d => load_step triangulate st d) {} with
  | error e => rw [hst, except_bind_err] at h; exact Except.noConfusion h
  | ok st =>
    rw [hst, except_bind_ok] at h
    cases hmat : load_materials mtl_tables st.mtl_files with
    | error e => rw [hmat, except_bind_err] at h; exact Except.noConfusion h
    | ok materials =>
      rw [hmat, except_bind_ok] at h
      cases hobj : build_objects st.positions st.normals st.texcoords
          materials st.material_faces [] with
      | error e =>
        rw [hobj, except_bind_err] at h
        exact Except.noConfusion h
      | ok objects =>
        rw [hobj, except_bind_ok] at h
        injection h with h
        subst h
        intro obj hmem
        rcases build_objects_mem _ _ _ _ _ _ _ hobj obj hmem with
          hnil | ⟨bucket, -, hass⟩
        · exact absurd hnil (List.not_mem_nil obj)
        · obtain ⟨-, hpos, hnrm, hidx, hmid, htsome, htnone⟩ :=
            assemble_bucket_ok _ _ _ _ _ _ hass
          have hplen : obj.mesh.positions.length =
              3 * bucket.2.flatten.length := by
            rw [hpos, flat3_flatMap_length]
          have hN : obj.mesh.positions.length / 3 =
              bucket.2.flatten.length := by
            rw [hplen]
            omega
          have hmatid : ∀ id, obj.mesh.material_id = some id →
              id < materials.length := by
            intro id hid
            rw [hmid] at hid
            exact bucket_material_id_lt _ _ _ hid
          have htex : obj.mesh.texcoords.length = 0 ∨
              obj.mesh.texcoords.length =
                2 * (obj.mesh.positions.length / 3) := by
            by_cases hall : ∀ c ∈ bucket.2.flatten,
                (corner_tex st.texcoords c).isSome = true
            · right
              rw [htsome hall, flat2_flatMap_length, hN]
            · left
              rw [htnone hall]
              rfl
          refine ⟨?_, ?_, htex, hmatid, ?_, ?_⟩
          · rw [hidx, hN]
          · rw [hnrm, flat3_flatMap_length, hplen]
          · refine mesh_checks_pass _ _ _ ?_ ?_ ?_ hmatid
            · rw [hplen]
              omega
            · rw [hnrm, flat3_flatMap_length, hplen]
            · rcases htex with h0 | h2
              · exact .inl (List.length_eq_zero.mp h0)
              · right
                rw [h2, hN]
                omega
          · intro i hi
            rw [hidx] at hi
            rw [hN]
            exact List.mem_range.mp hi

/-- Witness for C9 on the `C1_directives` load: its single mesh satisfies
every invariant of the claim. -/
theorem C9_load_invariants_witness :
    C1_mesh.indices = List.range (C1_mesh.positions.length / 3) ∧
    C1_mesh.normals.length = C1_mesh.positions.length ∧
    (C1_mesh.texcoords.length = 0 ∨
      C1_mesh.texcoords.length = 2 * (C1_mesh.positions.length / 3)) ∧
    (∀ id, C1_mesh.material_id = some id → id < ([] : List ObjMaterialData).length) ∧
    isErr (mesh_checks [] C1_mesh "model.obj") = false ∧
    (∀ i ∈ C1_mesh.indices, i < C1_mesh.positions.length / 3) := by
  have h := C9_load_invariants true C1_directives no_mtl
    { objects := [⟨C1_mesh⟩], materials := [] } "model.obj" (by rfl)
    ⟨C1_mesh⟩ (by simp)
  exact h

/-- The MTL loading loop concatenates the per-file tables in file-list
order onto the accumulator. -/
theorem load_materials_loop_ok
    (mtl_tables : String → Except String (List ObjMaterialData))
    (files : List String) (tables : List (List ObjMaterialData))
    (hok : List.Forall₂ (fun f t => mtl_tables f = .ok t) files tables)
    (acc : List ObjMaterialData) :
    load_materials_loop mtl_tables files acc =
      .ok (acc ++ tables.flatten) := by
  induction hok generalizing acc with
  | nil => simp [load_materials_loop]
  | cons hft hrest ih =>
    rename_i f t files' tables'
    rw [load_materials_loop, hft]
    show load_materials_loop mtl_tables files' (acc ++ t) = _
    rw [ih]
    simp

/-- Claim C10: the materials of several mtllib files are concatenated in
file-list order, all records kept; a `usemtl` name borne by several
records resolves to the id of the LAST record bearing it in concatenated
table order; a `usemtl` name borne by no record resolves to
`material_id = none`, silently, with no error. -/
theorem C10_usemtl_resolution
    (mtl_tables : String → Except String (List ObjMaterialData))
    (files : List String) (tables : List (List ObjMaterialData))
    (name : String)
    (hok : List.Forall₂ (fun f t => mtl_tables f = .ok t) files tables) :
    load_materials mtl_tables files = .ok tables.flatten ∧
    (∀ i, bucket_material_id tables.flatten (some name) = some i →
      i < tables.flatten.length ∧
      (∃ mat, tables.flatten[i]? = some mat ∧ mat.name = name) ∧
      ∀ j mat', i < j → tables.flatten[j]? = some mat' →
        mat'.name ≠ name) ∧
    ((∀ mat ∈ tables.flatten, mat.name ≠ name) →
      bucket_material_id tables.flatten (some name) = none) := by
  refine ⟨?_, ?_, ?_⟩
  · simpa using load_materials_loop_ok mtl_tables files tables hok []
  · intro i hi
    exact (material_map_lookup_spec tables.flatten name).1 i hi
  · intro hall
    exact (material_map_lookup_spec tables.flatten name).2 hall

/-- Witness for C10: with `M` defined in both files, the lookup resolves
to index 1 (the second, later record named `M`), and the unknown name
`Missing` resolves to no material id at all. -/
theorem C10_usemtl_resolution_witness :
    (load_materials C10_oracle ["a.mtl", "b.mtl"] =
      .ok C10_tables.flatten ∧
      (1 < C10_tables.flatten.length ∧
        (∃ mat, C10_tables.flatten[1]? = some mat ∧ mat.name = "M") ∧
        ∀ j mat', 1 < j → C10_tables.flatten[j]? = some mat' →
          mat'.name ≠ "M")) ∧
    bucket_material_id C10_tables.flatten (some "Missing") = none := by
  have hM := C10_usemtl_resolution C10_oracle ["a.mtl", "b.mtl"]
    C10_tables "M" (by refine .cons ?_ (.cons ?_ .nil) <;> rfl)
  have hX := C10_usemtl_resolution C10_oracle ["a.mtl", "b.mtl"]
    C10_tables "Missing" (by refine .cons ?_ (.cons ?_ .nil) <;> rfl)
  refine ⟨⟨hM.1, hM.2.1 1 (by rfl)⟩, hX.2.2 (by decide)⟩

/-- Writing a triangle's colors preserves the vertex count. -/
theorem write_face_colors_length (vertices : List Vertex)
    (triangle : List Nat) (color : Vector3) :
    (write_face_colors vertices triangle color).length =
      vertices.length := by
  induction triangle generalizing vertices with
  | nil => rfl
  | cons a rest ih =>
    rw [write_face_colors, ih, List.length_set]

/-- Writing a triangle's colors leaves vertices outside it unchanged. -/
theorem write_face_colors_not_mem (vertices : List Vertex)
    (triangle : List Nat) (color : Vector3) (v : Nat) (d : Vertex)
    (hv : v ∉ triangle) :
    (write_face_colors vertices triangle color).getD v d =
      vertices.getD v d := by
  induction triangle generalizing vertices with
  | nil => rfl
  | cons a rest ih =>
    rw [write_face_colors,
      ih _ (fun h => hv (List.mem_cons_of_mem _ h))]
    have hav : a ≠ v := fun e => hv (e ▸ List.mem_cons_self _ _)
    rw [List.getD_eq_getElem?_getD, List.getElem?_set_ne hav,
      ← List.getD_eq_getElem?_getD]

/-- Writing a triangle's colors sets both color fields of each vertex the
triangle references. -/
theorem write_face_colors_mem (vertices : List Vertex)
    (triangle : List Nat) (color : Vector3) (v : Nat)
    (hv : v ∈ triangle) (hlen : v < vertices.length) :
    ((write_face_colors vertices triangle color).getD v {}).color =
        color ∧
    ((write_face_colors vertices triangle color).getD v {}).new_color =
        color := by
  induction triangle generalizing vertices with
  | nil => cases hv
  | cons a rest ih =>
    rw [write_face_colors]
    by_cases hvr : v ∈ rest
    · exact ih _ hvr (by rw [List.length_set]; exact hlen)
    · have hav : a = v := by
        rcases List.mem_cons.mp hv with h | h
        · exact h.symm
        · exact absurd h hvr
      subst hav
      rw [write_face_colors_not_mem _ _ _ _ _ hvr]
      rw [List.getD_eq_getElem?_getD, List.getElem?_set_self hlen]
      exact ⟨rfl, rfl⟩

/-- A vertex outside every remaining chunk is untouched by the shading
loop. -/
theorem apply_shading_loop_not_mem (base : Vector3)
    (chunks : List (List Nat)) (k : Nat) (vertices : List Vertex)
    (v : Nat) (d : Vertex) (h : ∀ j, v ∉ chunks.getD j []) :
    (apply_shading_loop base k chunks vertices).getD v d =
      vertices.getD v d := by
  induction chunks generalizing k vertices with
  | nil => rfl
  | cons tri rest ih =>
    rw [apply_shading_loop, ih _ _ (fun j => by simpa using h (j + 1))]
    exact write_face_colors_not_mem _ _ _ _ _ (by simpa using h 0)

/-- The shading loop gives the vertices of chunk `i` the chunk's color,
provided no later chunk rewrites them. -/
theorem apply_shading_loop_spec (base : Vector3)
    (chunks : List (List Nat)) (k : Nat) (vertices : List Vertex)
    (i v : Nat) (hvlen : v < vertices.length)
    (hmem : v ∈ chunks.getD i [])
    (hlater : ∀ j, i < j → v ∉ chunks.getD j []) :
    ((apply_shading_loop base k chunks vertices).getD v {}).color =
        shaded_color base (k + i) ∧
    ((apply_shading_loop base k chunks vertices).getD v {}).new_color =
        shaded_color base (k + i) := by
  induction chunks generalizing k vertices i with
  | nil => simp at hmem
  | cons tri rest ih =>
    rw [apply_shading_loop]
    cases i with
    | zero =>
      simp only [List.getD_cons_zero] at hmem
      rw [apply_shading_loop_not_mem _ _ _ _ _ _
        (fun j => by simpa using hlater (j + 1) (Nat.succ_pos _))]
      simpa [Nat.add_zero] using
        write_face_colors_mem vertices tri _ v hmem hvlen
    | succ i =>
      have hrec := ih (k + 1)
        (write_face_colors vertices tri (shaded_color base k)) i
        (by rw [write_face_colors_length]; exact hvlen)
        (by simpa using hmem)
        (fun j hj => by simpa using hlater (j + 1) (by omega))
      have harith : k + 1 + i = k + (i + 1) := by omega
      rw [harith] at hrec
      exact hrec

/-- Writing a triangle's pending colors preserves the vertex count. -/
theorem write_face_new_colors_length (vertices : List Vertex)
    (triangle : List Nat) (color : Vector3) :
    (write_face_new_colors vertices triangle color).length =
      vertices.length := by
  induction triangle generalizing vertices with
  | nil => rfl
  | cons a rest ih =>
    rw [write_face_new_colors, ih, List.length_set]

/-- Writing a triangle's pending colors leaves other vertices unchanged. -/
theorem write_face_new_colors_not_mem (vertices : List Vertex)
    (triangle : List Nat) (color : Vector3) (v : Nat) (d : Vertex)
    (hv : v ∉ triangle) :
    (write_face_new_colors vertices triangle color).getD v d =
      vertices.getD v d := by
  induction triangle generalizing vertices with
  | nil => rfl
  | cons a rest ih =>
    rw [write_face_new_colors,
      ih _ (fun h => hv (List.mem_cons_of_mem _ h))]
    have hav : a ≠ v := fun e => hv (e ▸ List.mem_cons_self _ _)
    rw [List.getD_eq_getElem?_getD, List.getElem?_set_ne hav,
      ← List.getD_eq_getElem?_getD]

/-- Writing a triangle's pending colors sets exactly the `new_color`
field of the referenced vertices. -/
theorem write_face_new_colors_mem (vertices : List Vertex)
    (triangle : List Nat) (color : Vector3) (v : Nat)
    (hv : v ∈ triangle) (hlen : v < vertices.length) :
    ((write_face_new_colors vertices triangle color).getD v {}).new_color =
      color := by
  induction triangle generalizing vertices with
  | nil => cases hv
  | cons a rest ih =>
    rw [write_face_new_colors]
    by_cases hvr : v ∈ rest
    · exact ih _ hvr (by rw [List.length_set]; exact hlen)
    · have hav : a = v := by
        rcases List.mem_cons.mp hv with h | h
        · exact h.symm
        · exact absurd h hvr
      subst hav
      rw [write_face_new_colors_not_mem _ _ _ _ _ hvr]
      rw [List.getD_eq_getElem?_getD, List.getElem?_set_self hlen]
      rfl

/-- A vertex outside every remaining chunk is untouched by the pending
color loop. -/
theorem apply_new_color_loop_not_mem (color : Vector3)
    (chunks : List (List Nat)) (k : Nat) (vertices : List Vertex)
    (v : Nat) (d : Vertex) (h : ∀ j, v ∉ chunks.getD j []) :
    (apply_new_color_loop color k chunks vertices).getD v d =
      vertices.getD v d := by
  induction chunks generalizing k vertices with
  | nil => rfl
  | cons tri rest ih =>
    rw [apply_new_color_loop, ih _ _ (fun j => by simpa using h (j + 1))]
    exact write_face_new_colors_not_mem _ _ _ _ _ (by simpa using h 0)

/-- The pending color loop gives the vertices of chunk `i` the chunk's
shaded color, provided no later chunk rewrites them. -/
theorem apply_new_color_loop_spec (color : Vector3)
    (chunks : List (List Nat)) (k : Nat) (vertices : List Vertex)
    (i v : Nat) (hvlen : v < vertices.length)
    (hmem : v ∈ chunks.getD i [])
    (hlater : ∀ j, i < j → v ∉ chunks.getD j []) :
    ((apply_new_color_loop color k chunks vertices).getD v {}).new_color =
      shaded_color color (k + i) := by
  induction chunks generalizing k vertices i with
  | nil => simp at hmem
  | cons tri rest ih =>
    rw [apply_new_color_loop]
    cases i with
    | zero =>
      simp only [List.getD_cons_zero] at hmem
      rw [apply_new_color_loop_not_mem _ _ _ _ _ _
        (fun j => by simpa using hlater (j + 1) (Nat.succ_pos _))]
      simpa [Nat.add_zero] using
        write_face_new_colors_mem vertices tri _ v hmem hvlen
    | succ i =>
      have hrec := ih (k + 1)
        (write_face_new_colors vertices tri (shaded_color color k)) i
        (by rw [write_face_new_colors_length]; exact hvlen)
        (by simpa using hmem)
        (fun j hj => by simpa using hlater (j + 1) (by omega))
      have harith : k + 1 + i = k + (i + 1) := by omega
      rw [harith] at hrec
      exact hrec

/-- Claim C3: each vertex of the triangle with ordinal `i` (consecutive
index-buffer chunks of 3, emission order) receives at construction a
shading color and pending color of
`min(base_channel * ((i % 11) / 11 * 0.6 + 0.4), 1)` per channel, and
`change_color` recomputes the pending color with the identical ramp from
the new base color, in place; `SceneModel::new` and
`SceneModel::change_color` route every mesh through exactly these two
shaders.  (The vertex is assumed referenced by no later triangle, which
would overwrite it — `load`'s meshes reference each vertex once.) -/
theorem C3_face_shading (vertices : List Vertex) (indices : List Nat)
    (base c' : Vector3) (i v : Nat)
    (hvlen : v < vertices.length)
    (hmem : v ∈ (chunks_exact3 indices).getD i [])
    (hlater : ∀ j, i < j → v ∉ (chunks_exact3 indices).getD j []) :
    ((apply_face_shading vertices indices base).getD v {}).color =
        shaded_color base i ∧
    ((apply_face_shading vertices indices base).getD v {}).new_color =
        shaded_color base i ∧
    ((apply_new_color vertices indices c').getD v {}).new_color =
        shaded_color c' i ∧
    shaded_color base i =
      ⟨min (base.x * (((i % 11 : Nat) : ℚ) / 11 * (6 / 10) + 4 / 10)) 1,
        min (base.y * (((i % 11 : Nat) : ℚ) / 11 * (6 / 10) + 4 / 10)) 1,
        min (base.z * (((i % 11 : Nat) : ℚ) / 11 * (6 / 10) + 4 / 10)) 1⟩ ∧
    (∀ meshes, (SceneModel.new meshes base).meshes = meshes.map fun m =>
      { m with vertices := apply_face_shading m.vertices m.indices base }) ∧
    (∀ model : SceneModel, (model.change_color c').meshes =
        model.meshes.map (fun m =>
          { m with vertices := apply_new_color m.vertices m.indices c' }) ∧
      (model.change_color c').base_color = c') := by
  have h1 := apply_shading_loop_spec base (chunks_exact3 indices) 0
    vertices i v hvlen hmem hlater
  have h2 := apply_new_color_loop_spec c' (chunks_exact3 indices) 0
    vertices i v hvlen hmem hlater
  simp only [Nat.zero_add] at h1 h2
  exact ⟨h1.1, h1.2, h2, rfl, fun _ => rfl, fun _ => ⟨rfl, rfl⟩⟩

/-- Witness for C3 on a one-triangle mesh: vertex 0 of triangle 0 receives
the ordinal-0 colors under both operations. -/
theorem C3_face_shading_witness :
    ((apply_face_shading [{}, {}, {}] [0, 1, 2] ⟨1, 1, 1⟩).getD 0
        {}).color = shaded_color ⟨1, 1, 1⟩ 0 ∧
    ((apply_face_shading [{}, {}, {}] [0, 1, 2] ⟨1, 1, 1⟩).getD 0
        {}).new_color = shaded_color ⟨1, 1, 1⟩ 0 ∧
    ((apply_new_color [{}, {}, {}] [0, 1, 2] ⟨0, 1, 0⟩).getD 0
        {}).new_color = shaded_color ⟨0, 1, 0⟩ 0 := by
  have h := C3_face_shading [{}, {}, {}] [0, 1, 2] ⟨1, 1, 1⟩ ⟨0, 1, 0⟩ 0 0
    (by decide) (by decide)
    (fun j hj => by
      cases j with
      | zero => omega
      | succ j => simp [chunks_exact3])
  exact ⟨h.1, h.2.1, h.2.2.1⟩

/-- Counterexample to claim C6: with material diffuse map `d.bmp` and the
non-empty caller fallback `fallback.bmp`, resolution returns the fallback,
not the material path resolved against the model directory — the fallback
is NOT reserved for the missing-diffuse case.  (The source's own unit test
`cli_fallback_diffuse_texture_overrides_material_map_kd` asserts this
override.) -/
theorem C6_counterexample :
    resolve_diffuse_texture_path "models" "fallback.bmp"
      (some { name := "Mat", diffuse_texture := some "d.bmp" })
      "models/mesh.obj" = .ok "fallback.bmp" ∧
    path_join "models" "d.bmp" = "models/d.bmp" ∧
    ("fallback.bmp" : String) ≠ "models/d.bmp" := by
  refine ⟨rfl, rfl, by decide⟩

/-- Claim C6 (amended): a non-empty caller-supplied fallback texture path
is always used, even when the material defines a diffuse map; with an
empty fallback, a non-empty material diffuse map is resolved relative to
the model directory when it is a `.bmp`, is a hard error when it is not,
and the absence of any diffuse source is a hard error too; a material id
that does not index the materials table makes the `build_scene_model`
checks fail. -/
theorem C6_texture_resolution (model_dir fallback model_path : String)
    (material : Option ObjMaterialData) :
    (fallback ≠ "" →
      resolve_diffuse_texture_path model_dir fallback material model_path =
        .ok fallback) ∧
    (∀ d, (material.bind fun m => m.diffuse_texture) = some d → d ≠ "" →
      is_bmp_path d = true →
      resolve_diffuse_texture_path model_dir "" material model_path =
        .ok (path_join model_dir d)) ∧
    (∀ d, (material.bind fun m => m.diffuse_texture) = some d → d ≠ "" →
      is_bmp_path d = false →
      isErr (resolve_diffuse_texture_path model_dir "" material
        model_path) = true) ∧
    ((material.bind fun m => m.diffuse_texture).filter
        (fun t => decide (t ≠ "")) = none →
      isErr (resolve_diffuse_texture_path model_dir "" material
        model_path) = true) ∧
    (∀ (materials : List ObjMaterialData) (mesh : ObjMeshData) (id : Nat),
      mesh.material_id = some id → materials.length ≤ id →
      isErr (mesh_checks materials mesh model_path) = true) := by
  refine ⟨?_, ?_, ?_, ?_, ?_⟩
  · intro hfb
    rw [resolve_diffuse_texture_path, if_pos hfb]
  · intro d hd hd0 hbmp
    rw [resolve_diffuse_texture_path, if_neg (by simp)]
    have hfil : (material.bind fun m => m.diffuse_texture).filter
        (fun t => decide (t ≠ "")) = some d := by
      rw [hd]
      simp [Option.filter, hd0]
    rw [hfil]
    simp [hbmp, resolve_material_path]
  · intro d hd hd0 hbmp
    rw [resolve_diffuse_texture_path, if_neg (by simp)]
    have hfil : (material.bind fun m => m.diffuse_texture).filter
        (fun t => decide (t ≠ "")) = some d := by
      rw [hd]
      simp [Option.filter, hd0]
    rw [hfil]
    simp [hbmp, isErr]
  · intro hnone
    rw [resolve_diffuse_texture_path, if_neg (by simp), hnone]
    rfl
  · intro materials mesh id hid hlen
    rw [mesh_checks]
    split
    · rfl
    · split
      · rfl
      · split
        · rfl
        · rw [hid]
          show isErr (match materials[id]? with
            | none => Except.error
                ("OBJ mesh references unknown material id while loading " ++
                  model_path)
            | some mat => Except.ok (some mat)) = true
          rw [List.getElem?_eq_none hlen]
          rfl

/-- Witness for C6 (amended) at concrete inputs: the fallback override,
the material-relative resolution with empty fallback, and the
invalid-material-id failure. -/
theorem C6_texture_resolution_witness :
    resolve_diffuse_texture_path "models" "fallback.bmp"
      (some { name := "Mat", diffuse_texture := some "d.bmp" })
      "models/mesh.obj" = .ok "fallback.bmp" ∧
    resolve_diffuse_texture_path "models" ""
      (some { name := "Mat", diffuse_texture := some "d.bmp" })
      "models/mesh.obj" = .ok (path_join "models" "d.bmp") ∧
    isErr (mesh_checks [] { material_id := some 0 } "models/mesh.obj") =
      true := by
  have h1 := C6_texture_resolution "models" "fallback.bmp"
    "models/mesh.obj" (some { name := "Mat", diffuse_texture := some "d.bmp" })
  have h2 := C6_texture_resolution "models" ""
    "models/mesh.obj" (some { name := "Mat", diffuse_texture := some "d.bmp" })
  exact ⟨h1.1 (by decide), h2.2.1 "d.bmp" rfl (by decide) (by rfl),
    h2.2.2.2.2 [] { material_id := some 0 } 0 rfl (by decide)⟩

/-- Counterexample to claim C5: on a 32-bit image whose color mask does
not match the expected sRGB BGRA signature, `BMP::read` does not return a
typed error — `check_color_header` panics, aborting the process. -/
theorem C5_counterexample :
    bmp_read C5_bytes = .panicked
      "Unexpected color mask format! The program expects the pixel data to be in the BGRA format" ∧
    ∀ msg, (ReadOutcome.panicked
      "Unexpected color mask format! The program expects the pixel data to be in the BGRA format")
        ≠ .ioError msg := by
  exact ⟨by decide, fun msg h => ReadOutcome.noConfusion h⟩

/-- Claim C5 (amended): a missing or truncated prefix, a bad `BM`
signature, and a 32-bit image whose declared header is too small for a
color header all surface as typed `io::Result` errors; but a 32-bit image
whose color mask or color-space tag differs from the one expected
signature makes `check_color_header` `panic!` (process abort), and
`load_texture_bmp` panics whenever opening/decoding fails. -/
theorem C5_bmp_error_paths (bytes : List Nat) (e msg : String)
    (ch : BMPColorHeader) :
    (bytes.length < 14 →
      bmp_read bytes = .ioError "failed to fill whole buffer") ∧
    (∀ fh, read_exact bytes 0 14 = some fh →
      (parse_file_header fh).file_type ≠ 0x4D42 →
      bmp_read bytes = .ioError "Unrecognized file format") ∧
    (∀ fh ih, read_exact bytes 0 14 = some fh →
      (parse_file_header fh).file_type = 0x4D42 →
      read_exact bytes 14 40 = some ih →
      (parse_info_header ih).bit_count = 32 →
      (parse_info_header ih).size < 60 →
      bmp_read bytes = .ioError "Unrecognized file format") ∧
    (∀ fh ih chb, read_exact bytes 0 14 = some fh →
      (parse_file_header fh).file_type = 0x4D42 →
      read_exact bytes 14 40 = some ih →
      (parse_info_header ih).bit_count = 32 →
      60 ≤ (parse_info_header ih).size →
      read_exact bytes 54 20 = some chb →
      check_color_header (parse_color_header chb) = some msg →
      bmp_read bytes = .panicked msg) ∧
    (check_color_header ch = none ↔ ch = BMPColorHeader.default_value) ∧
    load_texture_bmp_unwrap (.error e) =
      .panicked ("Failed to open: " ++ e) := by
  refine ⟨?_, ?_, ?_, ?_, ?_, rfl⟩
  · intro hshort
    rw [bmp_read]
    rw [show read_exact bytes 0 14 = none from by
      rw [read_exact, if_neg (by omega)]]
  · intro fh hfh hsig
    rw [bmp_read, hfh]
    show (if (parse_file_header fh).file_type ≠ 0x4D42 then _ else _) = _
    rw [if_pos hsig]
  · intro fh ih hfh hsig hih h32 hsmall
    rw [bmp_read, hfh]
    show (if (parse_file_header fh).file_type ≠ 0x4D42 then _ else _) = _
    rw [if_neg (by simp [hsig]), hih]
    show (if (parse_info_header ih).bit_count = 32 then _ else _) = _
    rw [if_pos h32]
    rw [if_neg (by omega)]
  · intro fh ih chb hfh hsig hih h32 hbig hchb hcheck
    rw [bmp_read, hfh]
    show (if (parse_file_header fh).file_type ≠ 0x4D42 then _ else _) = _
    rw [if_neg (by simp [hsig]), hih]
    show (if (parse_info_header ih).bit_count = 32 then _ else _) = _
    rw [if_pos h32, if_pos hbig, hchb]
    show (match check_color_header (parse_color_header chb) with
      | some msg => ReadOutcome.panicked msg
      | none => bmp_read_after bytes (parse_file_header fh)
          (parse_info_header ih) (parse_color_header chb)) = _
    rw [hcheck]
  · constructor
    · intro h
      rw [check_color_header] at h
      split at h
      · exact Option.noConfusion h
      · split at h
        · exact Option.noConfusion h
        · rename_i h1 h2
          push_neg at h1
          obtain ⟨hr, hg, hb, ha⟩ := h1
          push_neg at h2
          cases ch
          simp_all [BMPColorHeader.default_value]
    · intro h
      subst h
      rfl

/-- Witness for C5 (amended): the empty file errors, `C5_bytes` panics on
its mask, the expected color header passes the check, and the texture
unwrapping panics on an open failure. -/
theorem C5_bmp_error_paths_witness :
    bmp_read [] = .ioError "failed to fill whole buffer" ∧
    bmp_read C5_bytes = .panicked
      "Unexpected color mask format! The program expects the pixel data to be in the BGRA format" ∧
    check_color_header BMPColorHeader.default_value = none ∧
    load_texture_bmp_unwrap (.error "io") =
      .panicked ("Failed to open: " ++ "io") := by
  have h0 := C5_bmp_error_paths [] "io"
    "Unexpected color mask format! The program expects the pixel data to be in the BGRA format"
    BMPColorHeader.default_value
  have h1 := C5_bmp_error_paths C5_bytes "io"
    "Unexpected color mask format! The program expects the pixel data to be in the BGRA format"
    BMPColorHeader.default_value
  refine ⟨h0.1 (by decide), ?_, (h1.2.2.2.2.1).mpr rfl, h1.2.2.2.2.2⟩
  exact h1.2.2.2.1 _ _ _ rfl (by decide) rfl (by decide) (by decide) rfl
    (by decide)

/-- A decoded row holds one pixel per width unit when the bytes suffice. -/
theorem decode_row_length (w : Nat) (bytes : List Nat)
    (h : 3 * w ≤ bytes.length) : (decode_row w bytes).length = w := by
  induction w generalizing bytes with
  | zero => rfl
  | succ w ih =>
    rcases bytes with _ | ⟨b, _ | ⟨g, _ | ⟨r, rest⟩⟩⟩
    · simp at h
    · simp at h; omega
    · simp at h; omega
    · have hstep : decode_row (w + 1) (b :: g :: r :: rest) =
          ⟨r, g, b⟩ :: decode_row w rest := rfl
      rw [hstep, List.length_cons, ih rest (by simp at h; omega)]

/-- The aligned stride never shrinks. -/
theorem make_stride_aligned4_ge (s : Nat) : s ≤ make_stride_aligned4 s := by
  rw [make_stride_aligned4]
  repeat' split
  all_goals omega

/-- Indexing the flattening of uniform-length rows picks row `r`, entry
`x`. -/
theorem flatten_getD_uniform {α : Type} (rows : List (List α)) (w : Nat)
    (hw : ∀ row ∈ rows, row.length = w) (r x : Nat) (hr : r < rows.length)
    (hx : x < w) (d : α) :
    rows.flatten.getD (r * w + x) d = (rows.getD r []).getD x d := by
  revert hw hr
  induction rows generalizing r with
  | nil =>
    intro hw hr
    simp at hr
  | cons row rest ih =>
    intro hw hr
    have hrow := hw row (List.mem_cons_self _ _)
    cases r with
    | zero =>
      rw [List.flatten_cons, Nat.zero_mul, Nat.zero_add,
        List.getD_cons_zero]
      rw [List.getD_eq_getElem?_getD,
        List.getElem?_append_left (by rw [hrow]; exact hx),
        ← List.getD_eq_getElem?_getD]
    | succ r =>
      have hidx : (r + 1) * w + x = row.length + (r * w + x) := by
        rw [hrow, Nat.succ_mul]
        ring
      rw [List.flatten_cons, List.getD_cons_succ, hidx]
      rw [List.getD_eq_getElem?_getD,
        List.getElem?_append_right (Nat.le_add_right _ _),
        Nat.add_sub_cancel_left, ← List.getD_eq_getElem?_getD]
      exact ih r (fun row hm => hw row (List.mem_cons_of_mem _ hm))
        (by simpa using hr)

/-- Claim C8: on a decoded image (rows stored in on-disk bottom-to-top
order, per-row padding skipped), `get_pixel(x, y)` reads the stored pixel
at linear offset `(h - 1 - y) * w + x`, which is pixel `x` of disk row
`h - 1 - y`; in particular `get_pixel(0, 0)` returns the first pixel of
the LAST row physically stored on disk — logical top-down addressing
over bottom-up physical storage. -/
theorem C8_get_pixel (w h x y : Nat) (bytes : List Nat) (img : Image)
    (hw : 1 ≤ w) (hh : 1 ≤ h) (hx : x < w) (hy : y < h)
    (hdec : decode_image24 w h bytes = some img) :
    img.get_pixel x y =
      img.data.getD ((h - 1 - y) * w + x) ⟨0, 0, 0⟩ ∧
    img.get_pixel x y =
      (decode_row w (bytes.drop ((h - 1 - y) * bmp_row_stride24 w))).getD
        x ⟨0, 0, 0⟩ ∧
    img.get_pixel 0 0 =
      (decode_row w (bytes.drop ((h - 1) * bmp_row_stride24 w))).getD
        0 ⟨0, 0, 0⟩ := by
  rw [decode_image24] at hdec
  split at hdec
  case isFalse => exact Option.noConfusion hdec
  case isTrue hlen =>
    injection hdec with hdec
    subst hdec
    have hstride : 3 * w ≤ bmp_row_stride24 w := by
      have := make_stride_aligned4_ge (3 * w)
      rw [bmp_row_stride24]
      omega
    have hrows : ∀ row ∈ (List.range h).map fun r =>
        decode_row w (bytes.drop (r * bmp_row_stride24 w)),
        row.length = w := by
      intro row hrow
      rw [List.mem_map] at hrow
      obtain ⟨r, hr, rfl⟩ := hrow
      rw [List.mem_range] at hr
      apply decode_row_length
      rw [List.length_drop]
      have hmul : r * bmp_row_stride24 w + bmp_row_stride24 w ≤
          h * bmp_row_stride24 w := by
        have : (r + 1) * bmp_row_stride24 w ≤ h * bmp_row_stride24 w :=
          Nat.mul_le_mul_right _ hr
        rw [Nat.succ_mul] at this
        omega
      omega
    have key : ∀ x' y', x' < w → y' < h →
        Image.get_pixel ⟨w, h, ((List.range h).map fun r =>
          decode_row w (bytes.drop (r * bmp_row_stride24 w))).flatten⟩
          x' y' =
        (decode_row w
          (bytes.drop ((h - 1 - y') * bmp_row_stride24 w))).getD x'
          ⟨0, 0, 0⟩ := by
      intro x' y' hx' hy'
      rw [Image.get_pixel]
      rw [show h - y' - 1 = h - 1 - y' from by omega]
      rw [flatten_getD_uniform _ w hrows (h - 1 - y') x'
        (by rw [List.length_map, List.length_range]; omega) hx']
      have hrowval : ((List.range h).map fun r =>
          decode_row w (bytes.drop (r * bmp_row_stride24 w))).getD
            (h - 1 - y') [] =
          decode_row w (bytes.drop ((h - 1 - y') * bmp_row_stride24 w)) := by
        rw [List.getD_eq_getElem?_getD, List.getElem?_map,
          List.getElem?_range (by omega)]
        rfl
      rw [hrowval]
    refine ⟨?_, key x y hx hy, ?_⟩
    · rw [Image.get_pixel]
      rw [show h - y - 1 = h - 1 - y from by omega]
    · have h00 := key 0 0 (by omega) (by omega)
      rw [h00]
      rw [show h - 1 - 0 = h - 1 from rfl]

/-- Witness for C8: a 1×2 decoded image (rows `10 20 30 | pad` then
`40 50 60 | pad` on disk); `get_pixel(0,0)` is the pixel of the second —
last stored — disk row. -/
theorem C8_get_pixel_witness :
    Image.get_pixel ⟨1, 2, [⟨30, 20, 10⟩, ⟨60, 50, 40⟩]⟩ 0 0 =
      (Image.data ⟨1, 2, [⟨30, 20, 10⟩, ⟨60, 50, 40⟩]⟩).getD
        ((2 - 1 - 0) * 1 + 0) ⟨0, 0, 0⟩ ∧
    Image.get_pixel ⟨1, 2, [⟨30, 20, 10⟩, ⟨60, 50, 40⟩]⟩ 0 0 =
      (decode_row 1 ([10, 20, 30, 0, 40, 50, 60, 0].drop
        ((2 - 1) * bmp_row_stride24 1))).getD 0 ⟨0, 0, 0⟩ := by
  have h := C8_get_pixel 1 2 0 0 [10, 20, 30, 0, 40, 50, 60, 0]
    ⟨1, 2, [⟨30, 20, 10⟩, ⟨60, 50, 40⟩]⟩
    (by decide) (by decide) (by decide) (by decide) (by decide)
  exact ⟨h.1, h.2.2⟩

end Scop
